import Mathlib

/-!
# terraform-provider-github: identity codec and CRUD glue

A shallow embedding of `github/util.go`, of the CRUD functions of
`github/resource_github_organization_webhook.go`,
`github/resource_github_user_ssh_signing_key.go` and
`github/resource_github_repository_code_scanning.go`, and of the read function of
`github/data_source_github_release_asset.go`.

Go strings are embedded as Lean strings.  Every byte the embedded code looks
at (`:`, `+`, `-`, the ASCII digits and letters) is a one-byte ASCII
character, and no multi-byte UTF-8 sequence contains such a byte, so working
on characters instead of bytes does not change any result.

A Go run-time panic is an explicit result: functions that can panic return
`Except GoPanic _`.  A Go pointer is an `Option` (`none` is `nil`).
-/

namespace GithubProvider

/-! ## Go run-time and library model -/

/-- Run-time panics the embedded code can raise. -/
inductive GoPanic where
  /-- Slice or array index out of range: `index out of range [index] with length len`. -/
  | indexOutOfRange (index len : Nat)
  /-- Dereference of a nil pointer. -/
  | nilDereference
  /-- The panic of `strconv.FormatInt`: `strconv: illegal AppendInt/FormatInt base`. -/
  | illegalFormatBase
  /-- A type assertion `v.(T)` on a value of another dynamic type. -/
  | typeAssertion
  deriving DecidableEq, Repr

deriving instance DecidableEq for Except

/-- Dereference of a Go pointer: `*p`. -/
def deref {α : Type} : Option α → Except GoPanic α
  | some a => .ok a
  | none => .error .nilDereference

/-- Go's `strings.Index(s, sep)` for a one-byte separator, together with the cut
it induces: the text before the first `sep` and the text after it. -/
def cutAt (sep : Char) : List Char → Option (List Char × List Char)
  | [] => none
  | c :: cs =>
    if c = sep then some ([], cs)
    else match cutAt sep cs with
      | none => none
      | some (a, b) => some (c :: a, b)

/-- Go's `strings.SplitN(s, sep, n)` for a one-byte separator and `n ≥ 0`:
at most `n` pieces, the last one holding the unsplit remainder; `n = 0` gives
the nil slice. -/
def SplitN (sep : Char) : Nat → List Char → List (List Char)
  | 0, _ => []
  | 1, s => [s]
  | n + 2, s =>
    match cutAt sep s with
    | none => [s]
    | some (a, rest) => a :: SplitN sep (n + 1) rest

/-- Indexing of a Go slice, `parts[i]`, with the run-time bounds check. -/
def index {α : Type} (parts : List α) (i : Nat) : Except GoPanic α :=
  match parts.get? i with
  | some a => .ok a
  | none => .error (.indexOutOfRange i parts.length)

/-- The two sentinel errors of `strconv`: `ErrSyntax` and `ErrRange`. -/
inductive NumError where
  | ErrSyntax
  | ErrRange
  deriving DecidableEq, Repr

/-- Value of a byte as a digit in `strconv.ParseUint`: `0`-`9`, then letters of
either case from 10 on; `none` for every other byte. -/
def digitVal (c : Char) : Option Nat :=
  if '0' ≤ c ∧ c ≤ '9' then some (c.toNat - '0'.toNat)
  else if 'a' ≤ c ∧ c ≤ 'z' then some (c.toNat - 'a'.toNat + 10)
  else if 'A' ≤ c ∧ c ≤ 'Z' then some (c.toNat - 'A'.toNat + 10)
  else none

/-- The digit loop of `strconv.ParseUint(s, base, bitSize)` for an explicit base
(`2 ≤ base ≤ 36`, so no prefix and no underscores): `n` is the accumulator.
On overflow the loop returns the maximal value with `ErrRange` at once, without
looking at the rest of the input. -/
def parseUintLoop (base bitSize : Nat) : List Char → Nat → Nat × Option NumError
  | [], n => (n, none)
  | c :: cs, n =>
    match digitVal c with
    | none => (0, some .ErrSyntax)
    | some d =>
      if d ≥ base then (0, some .ErrSyntax)
      else
        let maxVal := 2 ^ bitSize - 1
        let cutoff := (2 ^ 64 - 1) / base + 1
        if n ≥ cutoff then (maxVal, some .ErrRange)
        else
          let n1 := n * base + d
          if n1 ≥ 2 ^ 64 ∨ n1 > maxVal then (maxVal, some .ErrRange)
          else parseUintLoop base bitSize cs n1

/-- Go's `strconv.ParseUint(s, base, bitSize)` for an explicit base. -/
def ParseUint (s : List Char) (base bitSize : Nat) : Nat × Option NumError :=
  match s with
  | [] => (0, some .ErrSyntax)
  | _ => parseUintLoop base bitSize s 0

/-- Go's `strconv.ParseInt(s, base, bitSize)` for an explicit base: the value
and the error (`none` is a nil error).  A syntax error gives 0; a range error
gives the nearest bound of the signed range. -/
def ParseInt (s : String) (base bitSize : Nat) : Int × Option NumError :=
  match s.data with
  | [] => (0, some .ErrSyntax)
  | c :: cs =>
    let neg := c = '-'
    let rest := if c = '+' ∨ c = '-' then cs else c :: cs
    match ParseUint rest base bitSize with
    | (_, some .ErrSyntax) => (0, some .ErrSyntax)
    | (un, _) =>
      let cutoff := 2 ^ (bitSize - 1)
      if ¬ neg ∧ un ≥ cutoff then ((cutoff : Nat) - 1, some .ErrRange)
      else if neg ∧ un > cutoff then (-(cutoff : Nat), some .ErrRange)
      else (if neg then -(un : Int) else (un : Int), none)

/-- The number a string of decimal digits writes, continuing from the value `n` of
the digits before it. -/
def decimalValueFrom (n : Nat) (ds : List Char) : Nat :=
  ds.foldl (fun acc c => acc * 10 + (c.toNat - '0'.toNat)) n

/-- The number a string of decimal digits writes. -/
def decimalValue (ds : List Char) : Nat := decimalValueFrom 0 ds

/-- The digit alphabet of `strconv`: `0`-`9` then `a`-`z`. -/
def digitChar (d : Nat) : Char :=
  if d < 10 then Char.ofNat ('0'.toNat + d) else Char.ofNat ('a'.toNat + (d - 10))

/-- The conversion loop of `strconv.formatBits`: the digits of `u` in `base`, most
significant first, prepended to `acc`.  The fuel bounds the number of digits. -/
def formatBitsLoop (base : Nat) : Nat → Nat → List Char → List Char
  | 0, _, acc => acc
  | fuel + 1, u, acc =>
    if u < base then digitChar u :: acc
    else formatBitsLoop base fuel (u / base) (digitChar (u % base) :: acc)

/-- Go's `strconv.FormatInt(i, base)`: panics unless `2 ≤ base ≤ 36`. -/
def FormatInt (i : Int) (base : Nat) : Except GoPanic String :=
  if base < 2 ∨ base > 36 then .error .illegalFormatBase
  else
    let ds := formatBitsLoop base 64 i.natAbs []
    .ok (String.mk (if i < 0 then '-' :: ds else ds))

/-! ## `github/util.go` -/

/-- The function `toGithubID`: `strconv.ParseInt(id, 10, 64)` with the error discarded. -/
def toGithubID (id : String) : Int :=
  (ParseInt id 10 64).1

/-- The function `fromGithubID`: `strconv.FormatInt(*id, 64)`. -/
def fromGithubID (id : Option Int) : Except GoPanic String := do
  let i ← deref id
  FormatInt i 64

/-- The function `parseTwoPartID`: the pieces of id `a:b` as `a`, `b`. -/
def parseTwoPartID (id : String) : Except GoPanic (String × String) := do
  let parts := SplitN ':' 2 id.data
  let p0 ← index parts 0
  let p1 ← index parts 1
  .ok (String.mk p0, String.mk p1)

/-- The function `buildTwoPartID`: `fmt.Sprintf("%s:%s", *a, *b)`. -/
def buildTwoPartID (a b : Option String) : Except GoPanic String := do
  let x ← deref a
  let y ← deref b
  .ok (x ++ ":" ++ y)

/-! ## Remote client and SDK model -/

/-- The constant `http.StatusNotModified`. -/
def StatusNotModified : Nat := 304

/-- The constant `http.StatusNotFound`. -/
def StatusNotFound : Nat := 404

/-- Go `error` values as the embedded code tells them apart: the type assertion
`err.(*github.ErrorResponse)` succeeds exactly on `errorResponse`, whose
`Response.StatusCode` is `statusCode`. -/
inductive GoError where
  | errorResponse (statusCode : Nat)
  | other (msg : String)
  /-- A `*github.AcceptedError`: the remote answered 202, the change is scheduled. -/
  | acceptedError
  /-- The error of a malformed composite identifier. -/
  | invalidIdentity (id : String)
  /-- The result of `fmt.Errorf(text, ..., err)`: a new error whose text embeds the
  text of `cause`. -/
  | errorf (text : String) (cause : GoError)
  /-- The SDK's `Invalid address to set` error for a write under the attribute `key`.
  Which field below `key` the text names is left out. -/
  | invalidAddress (key : String)
  deriving DecidableEq, Repr

/-- Request context: the values stored under the keys `ctxId` and `ctxEtag`. -/
structure Ctx where
  id : Option String
  etag : Option String
  deriving DecidableEq, Repr

/-- A `*github.Response`, reduced to what the code reads: the status code and
`Header.Get("ETag")`. -/
structure Response where
  statusCode : Nat
  etag : String
  deriving DecidableEq, Repr

/-- The struct `github.HookConfig`. -/
structure HookConfig where
  contentType : Option String
  insecureSSL : Option String
  url : Option String
  secret : Option String
  deriving DecidableEq, Repr

/-- The struct `github.Hook`, reduced to the fields the resource uses. -/
structure Hook where
  id : Option Int
  url : Option String
  active : Option Bool
  events : List String
  config : Option HookConfig
  deriving DecidableEq, Repr

/-- The struct `github.SSHSigningKey`. -/
structure SSHSigningKey where
  id : Option Int
  key : Option String
  title : Option String
  deriving DecidableEq, Repr

/-- The REST client `meta.(*Owner).v3client`, reduced to the calls of the embedded
functions.  Each call returns the triple (or pair) the Go method returns. -/
structure Client where
  CreateHook : Ctx → String → Hook → Option Hook × Option Response × Option GoError
  EditHook : Ctx → String → Int → Hook → Option Hook × Option Response × Option GoError
  GetHook : Ctx → String → Int → Option Hook × Option Response × Option GoError
  DeleteHook : Ctx → String → Int → Option Response × Option GoError
  GetSSHSigningKey : Ctx → Int → Option SSHSigningKey × Option Response × Option GoError
  DeleteSSHSigningKey : Ctx → Int → Option Response × Option GoError

/-- The provider configuration `meta.(*Owner)`. -/
structure Owner where
  name : String
  v3client : Client

/-- One remote API call, as recorded in the call log of a run. -/
inductive ApiCall where
  | CreateHook (org : String) (hook : Hook)
  | EditHook (org : String) (id : Int) (hook : Hook)
  | GetHook (org : String) (id : Int)
  | DeleteHook (org : String) (id : Int)
  | GetSSHSigningKey (id : Int)
  | DeleteSSHSigningKey (id : Int)
  | GetReleaseAsset (owner repo : String) (id : Int)
  | DownloadReleaseAsset (owner repo : String) (id : Int)
  deriving DecidableEq, Repr

/-- One element of the `configuration` attribute of a webhook: the
`map[string]interface{}` of the configuration block. -/
structure WebhookConfiguration where
  url : String
  contentType : String
  secret : String
  insecureSsl : Bool
  deriving DecidableEq, Repr

/-- The `schema.ResourceData` of `github_organization_webhook`: the stored ID, the
new-resource flag and the attributes of the schema. -/
structure WebhookData where
  id : String
  isNewResource : Bool
  events : List String
  configuration : List WebhookConfiguration
  url : String
  active : Bool
  etag : String
  deriving DecidableEq, Repr

/-- The `schema.ResourceData` of `github_user_ssh_signing_key`. -/
structure SshSigningKeyData where
  id : String
  isNewResource : Bool
  title : String
  key : String
  etag : String
  deriving DecidableEq, Repr

/-- Functions of the provider and of the plugin SDK that the embedded files call
but do not define; they are parameters of the embedding. -/
structure Env where
  /-- The helper `checkOrganization(meta)`: nil, or the error it reports. -/
  checkOrganization : Owner → Option GoError
  /-- The helper `unconvertibleIdErr(id, err)`. -/
  unconvertibleIdErr : String → NumError → GoError
  /-- The helper `expandWebhookConfig(config)`. -/
  expandWebhookConfig : Option HookConfig → List WebhookConfiguration
  /-- The helper `flattenWebhookConfig(config)`. -/
  flattenWebhookConfig : WebhookConfiguration → Option HookConfig
  /-- The helper `insecureSslStringToBool(config)`, on the non-nil configuration it is
  called with; it returns a non-nil configuration. -/
  insecureSslStringToBool : HookConfig → HookConfig
  /-- The verdict of `d.Set(key, _)`: nil, or the error the SDK reports for `key`. -/
  setError : String → Option GoError

/-- The outcome of one CRUD function: the returned `error` (`none` is nil) or the
panic that ended it, the resource data afterwards, and the remote calls issued. -/
structure Run (δ : Type) where
  ret : Except GoPanic (Option GoError)
  d : δ
  calls : List ApiCall

/-- The statement `if err = d.Set(key, v); err != nil { return err }` followed by
the rest `k` of the function: `upd` is the write `d.Set` performs when it accepts. -/
def setOrReturn {δ : Type} (E : Env) (key : String) (upd : δ → δ) (d : δ)
    (calls : List ApiCall) (k : δ → Run δ) : Run δ :=
  match E.setError key with
  | some err => ⟨.ok (some err), d, calls⟩
  | none => k (upd d)

/-! ## `github/resource_github_organization_webhook.go` -/

/-- The context `resourceGithubOrganizationWebhookRead` builds: `ctxId` is the
stored ID, and `ctxEtag` the stored etag unless the resource is new. -/
def webhookReadCtx (d : WebhookData) : Ctx :=
  ⟨some d.id, if ¬ d.isNewResource then some d.etag else none⟩

/-- The part of `resourceGithubOrganizationWebhookRead` after a successful
`GetHook`: the writes of etag, url, active, events and configuration. -/
def webhookReadStore (E : Env) (d : WebhookData) (hook : Option Hook)
    (resp : Option Response) (calls : List ApiCall) : Run WebhookData :=
  match resp with
  | none => ⟨.error .nilDereference, d, calls⟩
  | some r =>
  setOrReturn E "etag" (fun d => { d with etag := r.etag }) d calls fun d =>
  setOrReturn E "url" (fun d => { d with url := (hook.bind (·.url)).getD "" }) d calls fun d =>
  setOrReturn E "active"
    (fun d => { d with active := (hook.bind (·.active)).getD false }) d calls fun d =>
  match hook with
  | none => ⟨.error .nilDereference, d, calls⟩
  | some h =>
  setOrReturn E "events" (fun d => { d with events := h.events }) d calls fun d =>
  let config : Except GoPanic (Option HookConfig) :=
    match d.configuration with
    | [] => .ok h.config
    | current :: _ =>
      match h.config with
      | none => .error .nilDereference
      | some hc =>
        if hc.secret ≠ none then .ok (some { hc with secret := some current.secret })
        else .ok (some hc)
  match config with
  | .error p => ⟨.error p, d, calls⟩
  | .ok config =>
  setOrReturn E "configuration"
    (fun d => { d with configuration := E.expandWebhookConfig config }) d calls fun d =>
  ⟨.ok none, d, calls⟩

/-- The function `resourceGithubOrganizationWebhookRead`. -/
def resourceGithubOrganizationWebhookRead (E : Env) (d : WebhookData) (m : Owner) :
    Run WebhookData :=
  match E.checkOrganization m with
  | some err => ⟨.ok (some err), d, []⟩
  | none =>
    let client := m.v3client
    let orgName := m.name
    match ParseInt d.id 10 64 with
    | (_, some err) => ⟨.ok (some (E.unconvertibleIdErr d.id err)), d, []⟩
    | (hookID, none) =>
      let ctx := webhookReadCtx d
      let calls := [ApiCall.GetHook orgName hookID]
      match client.GetHook ctx orgName hookID with
      | (_, _, some err) =>
        match err with
        | .errorResponse statusCode =>
          if statusCode = StatusNotModified then ⟨.ok none, d, calls⟩
          else if statusCode = StatusNotFound then ⟨.ok none, { d with id := "" }, calls⟩
          else ⟨.ok (some err), d, calls⟩
        | _ => ⟨.ok (some err), d, calls⟩
      | (hook, resp, none) => webhookReadStore E d hook resp calls

/-- The function `resourceGithubOrganizationWebhookDelete`. -/
def resourceGithubOrganizationWebhookDelete (E : Env) (d : WebhookData) (m : Owner) :
    Run WebhookData :=
  match E.checkOrganization m with
  | some err => ⟨.ok (some err), d, []⟩
  | none =>
    let client := m.v3client
    let orgName := m.name
    match ParseInt d.id 10 64 with
    | (_, some err) => ⟨.ok (some (E.unconvertibleIdErr d.id err)), d, []⟩
    | (hookID, none) =>
      let ctx : Ctx := ⟨some d.id, none⟩
      let (_, err) := client.DeleteHook ctx orgName hookID
      ⟨.ok err, d, [ApiCall.DeleteHook orgName hookID]⟩

/-- The function `resourceGithubOrganizationWebhookObject`: the hook built from the
resource data.  `Config` stays nil when the data holds no configuration block. -/
def resourceGithubOrganizationWebhookObject (E : Env) (d : WebhookData) : Hook where
  id := none
  url := some d.url
  events := d.events
  active := some d.active
  config :=
    match d.configuration with
    | [] => none
    | c :: _ => E.flattenWebhookConfig c

/-- The hook configuration `resourceGithubOrganizationWebhookCreate` hands to
`d.Set("configuration", _)`: the configuration GitHub returned, its secret replaced
by the secret of the request object when GitHub returned one, then passed through
`insecureSslStringToBool`. -/
def webhookCreateConfig (E : Env) (hook : Option Hook) (webhookObj : Hook) :
    Except GoPanic HookConfig :=
  match hook with
  | none => .error .nilDereference
  | some h =>
    match h.config with
    | none => .error .nilDereference
    | some hc =>
      if hc.secret ≠ none then
        match webhookObj.config with
        | none => .error .nilDereference
        | some rc => .ok (E.insecureSslStringToBool { hc with secret := rc.secret })
      else .ok (E.insecureSslStringToBool hc)

/-- The SDK's `d.Set(key, []interface{}{config})` for a list-of-blocks attribute when
the element is a `*github.HookConfig` struct instead of a `map[string]interface{}`:
the field writer decodes the struct into a map keyed by its Go field names
(`ContentType`, `InsecureSSL`, `URL`, `Secret`), finds none of them among the
attributes of the block, and rejects the write with `Invalid address to set`.  The
resource data stays as it was. -/
def setHookConfigStruct (key : String) (_config : HookConfig) (d : WebhookData) :
    WebhookData × Option GoError :=
  (d, some (.invalidAddress key))

/-- The part of `resourceGithubOrganizationWebhookCreate` before its final
`return resourceGithubOrganizationWebhookRead(d, meta)`: the remote call, the new
ID and the write of the configuration. -/
def webhookCreateWrite (E : Env) (d : WebhookData) (m : Owner) : Run WebhookData :=
  match E.checkOrganization m with
  | some err => ⟨.ok (some err), d, []⟩
  | none =>
    let client := m.v3client
    let orgName := m.name
    let webhookObj := resourceGithubOrganizationWebhookObject E d
    let ctx : Ctx := ⟨none, none⟩
    let calls := [ApiCall.CreateHook orgName webhookObj]
    match client.CreateHook ctx orgName webhookObj with
    | (_, _, some err) => ⟨.ok (some err), d, calls⟩
    | (hook, _, none) =>
      match FormatInt ((hook.bind (·.id)).getD 0) 10 with
      | .error p => ⟨.error p, d, calls⟩
      | .ok id =>
        let d := { d with id := id }
        match webhookCreateConfig E hook webhookObj with
        | .error p => ⟨.error p, d, calls⟩
        | .ok config =>
          match setHookConfigStruct "configuration" config d with
          | (d, some err) => ⟨.ok (some err), d, calls⟩
          | (d, none) => ⟨.ok none, d, calls⟩

/-- A function followed by `return next(d, meta)`: `next` runs only when `first`
returned nil, on the data `first` left, and its calls follow those of `first`. -/
def andThenRun {δ : Type} (first : Run δ) (next : δ → Run δ) : Run δ :=
  match first.ret with
  | .ok none =>
    let r := next first.d
    ⟨r.ret, r.d, first.calls ++ r.calls⟩
  | _ => first

/-- The function `resourceGithubOrganizationWebhookCreate`. -/
def resourceGithubOrganizationWebhookCreate (E : Env) (d : WebhookData) (m : Owner) :
    Run WebhookData :=
  andThenRun (webhookCreateWrite E d m) fun d => resourceGithubOrganizationWebhookRead E d m

/-- The function `resourceGithubOrganizationWebhookUpdate`. -/
def resourceGithubOrganizationWebhookUpdate (E : Env) (d : WebhookData) (m : Owner) :
    Run WebhookData :=
  match E.checkOrganization m with
  | some err => ⟨.ok (some err), d, []⟩
  | none =>
    let client := m.v3client
    let orgName := m.name
    let webhookObj := resourceGithubOrganizationWebhookObject E d
    match ParseInt d.id 10 64 with
    | (_, some err) => ⟨.ok (some (E.unconvertibleIdErr d.id err)), d, []⟩
    | (hookID, none) =>
      let ctx : Ctx := ⟨some d.id, none⟩
      let calls := [ApiCall.EditHook orgName hookID webhookObj]
      match client.EditHook ctx orgName hookID webhookObj with
      | (_, _, some err) => ⟨.ok (some err), d, calls⟩
      | (_, _, none) =>
        andThenRun ⟨.ok none, d, calls⟩ fun d => resourceGithubOrganizationWebhookRead E d m

/-! ## `github/resource_github_user_ssh_signing_key.go` -/

/-- The context `resourceGithubUserSshSigningKeyRead` builds. -/
def sshSigningKeyReadCtx (d : SshSigningKeyData) : Ctx :=
  ⟨some d.id, if ¬ d.isNewResource then some d.etag else none⟩

/-- The part of `resourceGithubUserSshSigningKeyRead` after the error check of
`GetSSHSigningKey`: the writes of etag, title and key.  `GetTitle` and `GetKey`
are nil-safe and give the empty string on a nil key or a nil field. -/
def sshSigningKeyReadStore (E : Env) (d : SshSigningKeyData) (key : Option SSHSigningKey)
    (resp : Option Response) (calls : List ApiCall) : Run SshSigningKeyData :=
  match resp with
  | none => ⟨.error .nilDereference, d, calls⟩
  | some r =>
  setOrReturn E "etag" (fun d => { d with etag := r.etag }) d calls fun d =>
  setOrReturn E "title"
    (fun d => { d with title := (key.bind (·.title)).getD "" }) d calls fun d =>
  setOrReturn E "key" (fun d => { d with key := (key.bind (·.key)).getD "" }) d calls fun d =>
  ⟨.ok none, d, calls⟩

/-- The function `resourceGithubUserSshSigningKeyRead`.  An error of `GetSSHSigningKey`
that is not a 304 or 404 error response leaves the `if err != nil` block without a
return, and the function goes on to the writes. -/
def resourceGithubUserSshSigningKeyRead (E : Env) (d : SshSigningKeyData) (m : Owner) :
    Run SshSigningKeyData :=
  let client := m.v3client
  match ParseInt d.id 10 64 with
  | (_, some err) => ⟨.ok (some (E.unconvertibleIdErr d.id err)), d, []⟩
  | (id, none) =>
    let ctx := sshSigningKeyReadCtx d
    let calls := [ApiCall.GetSSHSigningKey id]
    match client.GetSSHSigningKey ctx id with
    | (key, resp, some err) =>
      match err with
      | .errorResponse statusCode =>
        if statusCode = StatusNotModified then ⟨.ok none, d, calls⟩
        else if statusCode = StatusNotFound then ⟨.ok none, { d with id := "" }, calls⟩
        else sshSigningKeyReadStore E d key resp calls
      | _ => sshSigningKeyReadStore E d key resp calls
    | (key, resp, none) => sshSigningKeyReadStore E d key resp calls

/-- The function `resourceGithubUserSshSigningKeyDelete`. -/
def resourceGithubUserSshSigningKeyDelete (E : Env) (d : SshSigningKeyData) (m : Owner) :
    Run SshSigningKeyData :=
  let client := m.v3client
  match ParseInt d.id 10 64 with
  | (_, some err) => ⟨.ok (some (E.unconvertibleIdErr d.id err)), d, []⟩
  | (id, none) =>
    let ctx : Ctx := ⟨some d.id, none⟩
    let (_, err) := client.DeleteSSHSigningKey ctx id
    ⟨.ok err, d, [ApiCall.DeleteSSHSigningKey id]⟩

/-! ## `github/resource_github_repository_code_scanning.go` -/

/-- The constant `codeQLWorkflowRunFailure`. -/
def codeQLWorkflowRunFailure : String := "codeql setup workflow failed for repository"

/-- The constant `codeQLWorkflowRunInFlight`. -/
def codeQLWorkflowRunInFlight : String := "codeql setup for repository still in progress"

/-- The struct `github.DefaultSetupConfiguration`; `updatedAt` is the timestamp in
its string form (`UpdatedAt.String()`). -/
structure DefaultSetupConfiguration where
  state : Option String
  languages : List String
  querySuite : Option String
  updatedAt : Option String
  deriving DecidableEq, Repr

/-- The struct `github.UpdateDefaultSetupConfigurationOptions`, as the resource
fills it. -/
structure UpdateDefaultSetupConfigurationOptions where
  state : String
  querySuite : Option String
  deriving DecidableEq, Repr

/-- The struct `github.WorkflowRun`, reduced to its status. -/
structure WorkflowRun where
  status : Option String
  deriving DecidableEq, Repr

/-- The `schema.ResourceData` of `github_repository_code_scanning`. -/
structure CodeScanningData where
  id : String
  repository : String
  owner : String
  languages : List String
  querySuite : String
  state : String
  updatedAt : String
  wait : Bool
  deriving DecidableEq, Repr

/-- One remote call of the code-scanning resource, with the context it was made in. -/
inductive CodeScanningCall where
  | UpdateDefaultSetupConfiguration (ctx : Ctx) (owner repo : String)
      (opts : UpdateDefaultSetupConfigurationOptions)
  | GetDefaultSetupConfiguration (ctx : Ctx) (owner repo : String)
  | GetWorkflowRunByID (ctx : Ctx) (owner repo : String) (runId : Int)
  deriving DecidableEq, Repr

/-- The REST client as the code-scanning resource uses it.  The remote system has a
state `σ` that every call may read and change, so that repeated calls of one method
can answer differently. -/
structure CodeScanningClient (σ : Type) where
  UpdateDefaultSetupConfiguration :
    σ → Ctx → String → String → UpdateDefaultSetupConfigurationOptions → Option GoError × σ
  GetDefaultSetupConfiguration :
    σ → Ctx → String → String → (Option DefaultSetupConfiguration × Option GoError) × σ
  GetWorkflowRunByID :
    σ → Ctx → String → String → Int → (Option WorkflowRun × Option GoError) × σ

/-- The provider configuration `meta.(*Owner)` of the code-scanning resource. -/
structure CodeScanningOwner (σ : Type) where
  name : String
  v3client : CodeScanningClient σ

/-- The outcome of one function of the code-scanning resource: the returned error
or panic, the resource data and the remote state afterwards, the remote calls. -/
structure CodeScanningRun (σ : Type) where
  ret : Except GoPanic (Option GoError)
  d : CodeScanningData
  remote : σ
  calls : List CodeScanningCall

/-- Modelled from the spec: the three-result `parseTwoPartID(id, left, right)` that
this file calls; the repository's `util.go` at hand defines only the two-result
function.  Per the identity codec of the spec, `Decode(id, 2)` splits on the
separator, limited to two segments, and fails with `InvalidIdentity` if fewer than
two segments result, or any segment is empty.  `left` and `right` only name the
parts in the error text. -/
def parseTwoPartID3 (id _left _right : String) : String × String × Option GoError :=
  match SplitN ':' 2 id.data with
  | [a, b] =>
    if a = [] ∨ b = [] then ("", "", some (.invalidIdentity id))
    else (String.mk a, String.mk b, none)
  | _ => ("", "", some (.invalidIdentity id))

/-- The struct `retry.RetryError` (and `resource.RetryError`): an error and whether
the operation may be tried again. -/
structure RetryError where
  err : GoError
  retryable : Bool
  deriving DecidableEq, Repr

/-- The function `retry.NonRetryableError`. -/
def NonRetryableError (err : GoError) : RetryError := ⟨err, false⟩

/-- The function `retry.RetryableError`. -/
def RetryableError (err : GoError) : RetryError := ⟨err, true⟩

/-- One run of a retry function: what it returned, the remote state afterwards, and
the remote calls it made. -/
structure RetryStep (σ : Type) where
  result : Except GoPanic (Option RetryError)
  remote : σ
  calls : List CodeScanningCall

/-- The outcome of `retry.RetryContext`: the error it returns (`none` is nil) or the
panic of the retry function, the remote state afterwards, and the remote calls made. -/
structure RetryOutcome (σ : Type) where
  ret : Except GoPanic (Option GoError)
  remote : σ
  calls : List CodeScanningCall

/-- The error `retry.RetryContext` returns when the time is up before any attempt
has reported. -/
def timeoutError : GoError := .other "timeout while waiting for state to become 'success'"

/-- The SDK's `retry.RetryContext(ctx, timeout, f)`, the timeout counted in attempts:
`budget` is the number of runs of `f` that fit into it.  `f` is run until it returns
nil (success), or an error that is not retryable (returned as it is), or the budget
is used up; then the last retryable error `resultErr` is returned, or the timeout
error when there is none. -/
def RetryContext {σ : Type} (f : σ → RetryStep σ) :
    Nat → σ → Option GoError → RetryOutcome σ
  | 0, s, resultErr => ⟨.ok (some (resultErr.getD timeoutError)), s, []⟩
  | budget + 1, s, _ =>
    let r := f s
    match r.result with
    | .error p => ⟨.error p, r.remote, r.calls⟩
    | .ok none => ⟨.ok none, r.remote, r.calls⟩
    | .ok (some rerr) =>
      if rerr.retryable then
        let rest := RetryContext f budget r.remote (some rerr.err)
        ⟨rest.ret, rest.remote, r.calls ++ rest.calls⟩
      else ⟨.ok (some rerr.err), r.remote, r.calls⟩

/-- The function `createUpdateCodeScanning`: `query_suite` is taken when
`d.GetOk` reports it set, which for a string means non-empty. -/
def createUpdateCodeScanning (d : CodeScanningData) : UpdateDefaultSetupConfigurationOptions where
  querySuite := if d.querySuite ≠ "" then some d.querySuite else none
  state := d.state

/-- A `d.Set(key, v)` whose error is dropped: the write happens when the SDK
accepts it. -/
def setIgnoringError {δ : Type} (E : Env) (key : String) (upd : δ → δ) (d : δ) : δ :=
  match E.setError key with
  | some _ => d
  | none => upd d

/-- The function `resourceGithubRepositoryCodeScanningRead`. -/
def resourceGithubRepositoryCodeScanningRead {σ : Type} (E : Env) (d : CodeScanningData)
    (m : CodeScanningOwner σ) (s : σ) : CodeScanningRun σ :=
  let client := m.v3client
  match parseTwoPartID3 d.id "owner" "repository" with
  | (_, _, some err) => ⟨.ok (some err), d, s, []⟩
  | (owner, repoName, none) =>
    let ctx : Ctx := ⟨some d.id, none⟩
    let calls := [CodeScanningCall.GetDefaultSetupConfiguration ctx owner repoName]
    match client.GetDefaultSetupConfiguration s ctx owner repoName with
    | ((_, some err), s1) => ⟨.ok (some err), d, s1, calls⟩
    | ((none, none), s1) => ⟨.error .nilDereference, d, s1, calls⟩
    | ((some config, none), s1) =>
      let timeString := match config.updatedAt with
        | some t => t
        | none => ""
      let d := setIgnoringError E "repository" (fun d => { d with repository := repoName }) d
      let d := setIgnoringError E "owner" (fun d => { d with owner := owner }) d
      let d := setIgnoringError E "state" (fun d => { d with state := config.state.getD "" }) d
      let d := setIgnoringError E "query_suite"
        (fun d => { d with querySuite := config.querySuite.getD "" }) d
      let d := setIgnoringError E "languages"
        (fun d => { d with languages := config.languages }) d
      let d := setIgnoringError E "updated_at" (fun d => { d with updatedAt := timeString }) d
      ⟨.ok none, d, s1, calls⟩

/-- The statement `d.SetId(buildTwoPartID(owner, repoName))` followed by
`return resourceGithubRepositoryCodeScanningRead(d, meta)`, after the remote `calls`. -/
def setIdAndRead {σ : Type} (E : Env) (d : CodeScanningData) (m : CodeScanningOwner σ)
    (owner repoName : String) (s : σ) (calls : List CodeScanningCall) : CodeScanningRun σ :=
  match buildTwoPartID (some owner) (some repoName) with
  | .error p => ⟨.error p, d, s, calls⟩
  | .ok id =>
    let r := resourceGithubRepositoryCodeScanningRead E { d with id := id } m s
    ⟨r.ret, r.d, r.remote, calls ++ r.calls⟩

/-- The retry function of `resourceGithubRepositoryCodeScanningCreate`: one poll of
the default-setup configuration. -/
def codeScanningCreatePoll {σ : Type} (client : CodeScanningClient σ)
    (owner repoName : String) (s : σ) : RetryStep σ :=
  let ctx : Ctx := ⟨none, none⟩
  let calls := [CodeScanningCall.GetDefaultSetupConfiguration ctx owner repoName]
  match client.GetDefaultSetupConfiguration s ctx owner repoName with
  | ((_, some err), s1) => ⟨.ok (some (NonRetryableError err)), s1, calls⟩
  | ((conf, none), s1) =>
    match conf.bind (·.state) with
    | none => ⟨.error .nilDereference, s1, calls⟩
    | some state =>
      if state = "not-configured" then
        ⟨.ok (some (RetryableError (.other "not configured yet"))), s1, calls⟩
      else ⟨.ok none, s1, calls⟩

/-- The remote state after `i` polls of `codeScanningCreatePoll` made one after the
other from the state `s`: each poll is one `GetDefaultSetupConfiguration` call. -/
def stateAfterPolls {σ : Type} (client : CodeScanningClient σ) (owner repoName : String) :
    Nat → σ → σ
  | 0, s => s
  | i + 1, s =>
    stateAfterPolls client owner repoName i
      (client.GetDefaultSetupConfiguration s ⟨none, none⟩ owner repoName).2

/-- The part of `resourceGithubRepositoryCodeScanningCreate` after the call of
`UpdateDefaultSetupConfiguration`, which returned `err` and left the remote in `s1`:
the error check, the wait, the new ID and the final read. -/
def codeScanningCreateWait {σ : Type} (E : Env) (budget : Nat) (d : CodeScanningData)
    (m : CodeScanningOwner σ) (err : Option GoError) (s1 : σ)
    (calls : List CodeScanningCall) : CodeScanningRun σ :=
  let client := m.v3client
  let owner := m.name
  let repoName := d.repository
  let accepted := err = none ∨ err = some .acceptedError
  if ¬ accepted then ⟨.ok err, d, s1, calls⟩
  else
    let w := RetryContext (codeScanningCreatePoll client owner repoName) budget s1 none
    match w.ret with
    | .error p => ⟨.error p, d, w.remote, calls ++ w.calls⟩
    | .ok (some err) =>
      ⟨.ok (some (.errorf ("Error waiting for default setup configuration (" ++ d.id
          ++ ") to be configured") err)), d, w.remote, calls ++ w.calls⟩
    | .ok none => setIdAndRead E d m owner repoName w.remote (calls ++ w.calls)

/-- The function `resourceGithubRepositoryCodeScanningCreate`; `budget` is the number
of polls that fit into the timeout of `retry.RetryContext`. -/
def resourceGithubRepositoryCodeScanningCreate {σ : Type} (E : Env) (budget : Nat)
    (d : CodeScanningData) (m : CodeScanningOwner σ) (s : σ) : CodeScanningRun σ :=
  let client := m.v3client
  let owner := m.name
  let repoName := d.repository
  let createUpdateOpts := createUpdateCodeScanning d
  let ctx : Ctx := ⟨none, none⟩
  let calls :=
    [CodeScanningCall.UpdateDefaultSetupConfiguration ctx owner repoName createUpdateOpts]
  let r := client.UpdateDefaultSetupConfiguration s ctx owner repoName createUpdateOpts
  codeScanningCreateWait E budget d m r.1 r.2 calls

/-- The function `resourceGithubRepositoryCodeScanningDelete`. -/
def resourceGithubRepositoryCodeScanningDelete {σ : Type} (d : CodeScanningData)
    (m : CodeScanningOwner σ) (s : σ) : CodeScanningRun σ :=
  let client := m.v3client
  match parseTwoPartID3 d.id "owner" "repository" with
  | (_, _, some err) => ⟨.ok (some err), d, s, []⟩
  | (owner, repoName, none) =>
    let createUpdateOpts := createUpdateCodeScanning d
    let ctx : Ctx := ⟨some d.id, none⟩
    let (err, s1) := client.UpdateDefaultSetupConfiguration s ctx owner repoName createUpdateOpts
    ⟨.ok err, d, s1,
      [CodeScanningCall.UpdateDefaultSetupConfiguration ctx owner repoName createUpdateOpts]⟩

/-- The function `resourceGithubRepositoryCodeScanningUpdate`. -/
def resourceGithubRepositoryCodeScanningUpdate {σ : Type} (E : Env) (d : CodeScanningData)
    (m : CodeScanningOwner σ) (s : σ) : CodeScanningRun σ :=
  let client := m.v3client
  match parseTwoPartID3 d.id "owner" "repository" with
  | (_, _, some err) => ⟨.ok (some err), d, s, []⟩
  | (owner, repoName, none) =>
    let createUpdateOpts := createUpdateCodeScanning d
    let ctx : Ctx := ⟨none, none⟩
    let calls :=
      [CodeScanningCall.UpdateDefaultSetupConfiguration ctx owner repoName createUpdateOpts]
    match client.UpdateDefaultSetupConfiguration s ctx owner repoName createUpdateOpts with
    | (some err, s1) => ⟨.ok (some err), d, s1, calls⟩
    | (none, s1) => setIdAndRead E d m owner repoName s1 calls

/-- The function `waitForCodeQLActionCompleteFunc`: the retry function it returns,
run on the remote state `s`. -/
def waitForCodeQLActionCompleteFunc {σ : Type} (ctx : Ctx) (client : CodeScanningClient σ)
    (resourceId : String) (runId : Int) (s : σ) : RetryStep σ :=
  match parseTwoPartID3 resourceId "owner" "repository" with
  | (_, _, some err) => ⟨.ok (some (NonRetryableError err)), s, []⟩
  | (owner, repoName, none) =>
    let calls := [CodeScanningCall.GetWorkflowRunByID ctx owner repoName runId]
    match client.GetWorkflowRunByID s ctx owner repoName runId with
    | ((_, some err), s1) => ⟨.ok (some (NonRetryableError err)), s1, calls⟩
    | ((workflowRun, none), s1) =>
      match workflowRun.bind (·.status) with
      | none => ⟨.error .nilDereference, s1, calls⟩
      | some status =>
        if status = "success" then ⟨.ok none, s1, calls⟩
        else if status = "failure" ∨ status = "timed out" ∨ status = "cancelled" then
          ⟨.ok (some (NonRetryableError (.other codeQLWorkflowRunFailure))), s1, calls⟩
        else if status = "queued" ∨ status = "in progress" ∨ status = "waiting" then
          ⟨.ok (some (RetryableError (.other codeQLWorkflowRunInFlight))), s1, calls⟩
        else ⟨.ok none, s1, calls⟩

/-! ## `github/data_source_github_release_asset.go` -/

/-- A `github.Timestamp`, kept as the text its `String()` method gives. -/
structure Timestamp where
  text : String
  deriving DecidableEq, Repr

/-- The method `Timestamp.String`; on a nil `*Timestamp` the call panics. -/
def Timestamp.String (t : Option Timestamp) : Except GoPanic String :=
  match t with
  | none => .error .nilDereference
  | some t => .ok t.text

/-- The struct `github.ReleaseAsset`, reduced to the fields the data source reads. -/
structure ReleaseAsset where
  id : Option Int
  url : Option String
  nodeID : Option String
  name : Option String
  label : Option String
  contentType : Option String
  size : Option Int
  createdAt : Option Timestamp
  updatedAt : Option Timestamp
  browserDownloadURL : Option String
  deriving DecidableEq, Repr

/-- An `io.ReadCloser` as `io.Copy` sees it: the bytes it yields and the error that
ends the reading, if any. -/
structure ReadCloser where
  content : String
  readError : Option GoError
  deriving DecidableEq, Repr

/-- The REST client as the release-asset data source uses it. -/
structure RepositoriesClient where
  GetReleaseAsset : String → String → Int → Option ReleaseAsset × Option GoError
  DownloadReleaseAsset : String → String → Int → Option ReadCloser × Option GoError

/-- The `schema.ResourceData` of the data source `github_release_asset`. -/
structure ReleaseAssetData where
  id : String
  assetId : Int
  owner : String
  repository : String
  body : String
  url : String
  nodeId : String
  name : String
  label : String
  contentType : String
  size : Int
  createdAt : String
  updatedAt : String
  browserDownloadUrl : String
  deriving DecidableEq, Repr

/-- The writes of `dataSourceGithubReleaseAssetRead` once the asset and its body are
at hand.  A nil pointer handed to `d.Set` stores the zero value.  The attribute
`created_at` is written twice, the second time from `asset.UpdatedAt`. -/
def releaseAssetStore (E : Env) (d : ReleaseAssetData) (asset : Option ReleaseAsset)
    (body : String) (calls : List ApiCall) : Run ReleaseAssetData :=
  match FormatInt ((asset.bind (·.id)).getD 0) 10 with
  | .error p => ⟨.error p, d, calls⟩
  | .ok id =>
  let d := { d with id := id }
  setOrReturn E "body" (fun d => { d with body := body }) d calls fun d =>
  match asset with
  | none => ⟨.error .nilDereference, d, calls⟩
  | some a =>
  setOrReturn E "url" (fun d => { d with url := a.url.getD "" }) d calls fun d =>
  setOrReturn E "node_id" (fun d => { d with nodeId := a.nodeID.getD "" }) d calls fun d =>
  setOrReturn E "name" (fun d => { d with name := a.name.getD "" }) d calls fun d =>
  setOrReturn E "label" (fun d => { d with label := a.label.getD "" }) d calls fun d =>
  setOrReturn E "content_type"
    (fun d => { d with contentType := a.contentType.getD "" }) d calls fun d =>
  setOrReturn E "size" (fun d => { d with size := a.size.getD 0 }) d calls fun d =>
  match Timestamp.String a.createdAt with
  | .error p => ⟨.error p, d, calls⟩
  | .ok created =>
  setOrReturn E "created_at" (fun d => { d with createdAt := created }) d calls fun d =>
  match Timestamp.String a.updatedAt with
  | .error p => ⟨.error p, d, calls⟩
  | .ok updated =>
  setOrReturn E "created_at" (fun d => { d with createdAt := updated }) d calls fun d =>
  setOrReturn E "browser_download_url"
    (fun d => { d with browserDownloadUrl := a.browserDownloadURL.getD "" }) d calls fun d =>
  ⟨.ok none, d, calls⟩

/-- The function `dataSourceGithubReleaseAssetRead`. -/
def dataSourceGithubReleaseAssetRead (E : Env) (d : ReleaseAssetData)
    (client : RepositoriesClient) : Run ReleaseAssetData :=
  let repository := d.repository
  let owner := d.owner
  let assetID := d.assetId
  let calls1 := [ApiCall.GetReleaseAsset owner repository assetID]
  match client.GetReleaseAsset owner repository assetID with
  | (_, some err) => ⟨.ok (some err), d, calls1⟩
  | (asset, none) =>
    let calls := calls1 ++ [ApiCall.DownloadReleaseAsset owner repository assetID]
    match client.DownloadReleaseAsset owner repository assetID with
    | (_, some err) => ⟨.ok (some err), d, calls⟩
    | (none, none) => ⟨.error .nilDereference, d, calls⟩
    | (some respBody, none) =>
      match respBody.readError with
      | some err => ⟨.ok (some err), d, calls⟩
      | none => releaseAssetStore E d asset respBody.content calls

/-! ## `github/util.go`: `validateValueFunc` -/

/-- A Go `interface{}` value handed to a schema validation function. -/
inductive GoValue where
  | str (s : String)
  | int (n : Int)
  | bool (b : Bool)
  deriving DecidableEq, Repr

/-- The loop of `validateValueFunc`: `valid` after `for _, role := range values`,
which stops at the first `role` equal to `value`. -/
def validateValueLoop (value : String) : List String → Bool
  | [] => false
  | role :: rest => if value = role then true else validateValueLoop value rest

/-- The function returned by `validateValueFunc(values)`, applied to `v` and `k`:
the warnings `we` and the `errors`. -/
def validateValueFunc (values : List String) (v : GoValue) (k : String) :
    Except GoPanic (List String × List GoError) :=
  match v with
  | .str value =>
    let valid := validateValueLoop value values
    let errors : List GoError :=
      if ¬ valid then [] ++ [.other (value ++ " is an invalid value for argument " ++ k)]
      else []
    .ok ([], errors)
  | _ => .error .typeAssertion

/-! ## `github/resource_github_user_ssh_signing_key.go`: the `key` attribute -/

/-- Go's `unicode.IsSpace`. -/
def IsSpace (r : Char) : Bool :=
  let n := r.toNat
  if n ≤ 0xFF then
    n = 0x09 ∨ n = 0x0A ∨ n = 0x0B ∨ n = 0x0C ∨ n = 0x0D ∨ n = 0x20 ∨ n = 0x85 ∨ n = 0xA0
  else
    n = 0x1680 ∨ (0x2000 ≤ n ∧ n ≤ 0x200A) ∨ n = 0x2028 ∨ n = 0x2029 ∨ n = 0x202F
      ∨ n = 0x205F ∨ n = 0x3000

/-- Go's `strings.TrimSpace`: the string without its leading and trailing white
space. -/
def TrimSpace (s : String) : String :=
  String.mk ((s.data.dropWhile IsSpace).rdropWhile IsSpace)

/-- The `DiffSuppressFunc` of the attribute `key`. -/
def keyDiffSuppressFunc (_k oldV newV : String) (_d : SshSigningKeyData) : Bool :=
  let newTrimmed := TrimSpace newV
  oldV == newTrimmed

/-! ## Sample environment and scripted remotes -/

/-- A sample environment: the organization check passes, `d.Set` accepts every key,
and a hook configuration expands to one configuration block. -/
def sampleEnv : Env where
  checkOrganization := fun _ => none
  unconvertibleIdErr := fun id _ => .other ("unconvertible id " ++ id)
  expandWebhookConfig := fun c =>
    match c with
    | none => []
    | some hc => [⟨hc.url.getD "", hc.contentType.getD "", hc.secret.getD "",
        hc.insecureSSL == some "1"⟩]
  flattenWebhookConfig := fun c =>
    some ⟨some c.contentType, some (if c.insecureSsl then "1" else "0"), some c.url,
      some c.secret⟩
  insecureSslStringToBool := fun hc =>
    { hc with insecureSSL := hc.insecureSSL.map fun v => if v = "1" then "true" else "false" }
  setError := fun _ => none

/-- A scripted remote that answers every call with an HTTP error response of the
given status code: no object, the response, and a `*github.ErrorResponse`. -/
def statusClient (statusCode : Nat) : Client where
  CreateHook := fun _ _ _ => (none, some ⟨statusCode, ""⟩, some (.errorResponse statusCode))
  EditHook := fun _ _ _ _ => (none, some ⟨statusCode, ""⟩, some (.errorResponse statusCode))
  GetHook := fun _ _ _ => (none, some ⟨statusCode, ""⟩, some (.errorResponse statusCode))
  DeleteHook := fun _ _ _ => (some ⟨statusCode, ""⟩, some (.errorResponse statusCode))
  GetSSHSigningKey := fun _ _ => (none, some ⟨statusCode, ""⟩, some (.errorResponse statusCode))
  DeleteSSHSigningKey := fun _ _ => (some ⟨statusCode, ""⟩, some (.errorResponse statusCode))

/-- A scripted remote whose every call fails before any HTTP response arrives
(a transport error): no object, no response, and an error of another type. -/
def transportErrorClient : Client where
  CreateHook := fun _ _ _ => (none, none, some (.other "dial tcp: i/o timeout"))
  EditHook := fun _ _ _ _ => (none, none, some (.other "dial tcp: i/o timeout"))
  GetHook := fun _ _ _ => (none, none, some (.other "dial tcp: i/o timeout"))
  DeleteHook := fun _ _ _ => (none, some (.other "dial tcp: i/o timeout"))
  GetSSHSigningKey := fun _ _ => (none, none, some (.other "dial tcp: i/o timeout"))
  DeleteSSHSigningKey := fun _ _ => (none, some (.other "dial tcp: i/o timeout"))

/-- A stored webhook: ID `"7"`, one configuration block, an etag. -/
def sampleWebhook : WebhookData :=
  ⟨"7", false, ["push"], [⟨"https://example.com/hook", "json", "s3cret", false⟩],
    "https://api.github.com/orgs/octo/hooks/7", true, "W/\"abc\""⟩

/-- A stored SSH signing key: ID `"7"`, a title, a key, an etag. -/
def sampleSshSigningKey : SshSigningKeyData :=
  ⟨"7", false, "laptop", "ssh-rsa AAAA", "W/\"abc\""⟩

/-- A default-setup configuration that is not configured yet. -/
def notConfigured : DefaultSetupConfiguration :=
  ⟨some "not-configured", [], none, none⟩

/-- A default-setup configuration that has converged. -/
def sampleConfigured : DefaultSetupConfiguration :=
  ⟨some "configured", ["go"], some "default", some "2024-05-01 10:00:00 +0000 UTC"⟩

/-- A scripted remote for the code-scanning resource.  Its state counts the
configuration reads answered so far: the first `n` reads answer `notConfigured`,
every later one answers `conf`.  The mutation answers `mutation`. -/
def scriptedCodeScanning (n : Nat) (mutation : Option GoError)
    (conf : DefaultSetupConfiguration) : CodeScanningClient Nat where
  UpdateDefaultSetupConfiguration := fun s _ _ _ _ => (mutation, s)
  GetDefaultSetupConfiguration := fun s _ _ _ =>
    ((some (if s < n then notConfigured else conf), none), s + 1)
  GetWorkflowRunByID := fun s _ _ _ _ => ((some ⟨some "success"⟩, none), s)

/-- A scripted remote whose workflow run has the given status. -/
def workflowStatusClient (status : String) : CodeScanningClient Unit where
  UpdateDefaultSetupConfiguration := fun s _ _ _ _ => (none, s)
  GetDefaultSetupConfiguration := fun s _ _ _ => ((some sampleConfigured, none), s)
  GetWorkflowRunByID := fun s _ _ _ _ => ((some ⟨some status⟩, none), s)

/-- Resource data of a code-scanning setup about to be created: no ID yet. -/
def sampleCodeScanning : CodeScanningData :=
  ⟨"", "repo", "octo", [], "default", "configured", "", true⟩

/-- Stored resource data whose `owner` and `repository` attributes differ from the
parts of the stored ID. -/
def renamedCodeScanning : CodeScanningData :=
  ⟨"octo:repo", "other-repo", "someone-else", ["go"], "default", "configured", "", true⟩

/-- A scripted remote that answers every hook call with the given hook, as GitHub
does on success; deletions succeed. -/
def hookClient (hook : Hook) : Client where
  CreateHook := fun _ _ _ => (some hook, some ⟨201, "W/\"new\""⟩, none)
  EditHook := fun _ _ _ _ => (some hook, some ⟨200, "W/\"new\""⟩, none)
  GetHook := fun _ _ _ => (some hook, some ⟨200, "W/\"new\""⟩, none)
  DeleteHook := fun _ _ _ => (some ⟨204, ""⟩, none)
  GetSSHSigningKey := fun _ _ => (none, some ⟨404, ""⟩, some (.errorResponse 404))
  DeleteSSHSigningKey := fun _ _ => (some ⟨204, ""⟩, none)

/-- The hook configuration as GitHub returns it: the secret masked by asterisks. -/
def maskedHookConfig : HookConfig :=
  ⟨some "json", some "0", some "https://example.com/hook", some "********"⟩

/-- The hook GitHub returns for `sampleWebhook`. -/
def maskedHook : Hook :=
  ⟨some 7, some "https://api.github.com/orgs/octo/hooks/7", some true, ["push"],
    some maskedHookConfig⟩

/-- A release asset created and updated at different times. -/
def sampleAsset : ReleaseAsset :=
  ⟨some 11, some "https://api.github.com/repos/octo/repo/releases/assets/11", some "RA_1",
    some "tool.tar.gz", none, some "application/gzip", some 1024,
    some ⟨"2020-01-01 00:00:00 +0000 UTC"⟩, some ⟨"2021-06-30 12:00:00 +0000 UTC"⟩,
    some "https://github.com/octo/repo/releases/download/v1/tool.tar.gz"⟩

/-- A scripted remote that serves `sampleAsset` and its body. -/
def assetClient : RepositoriesClient where
  GetReleaseAsset := fun _ _ _ => (some sampleAsset, none)
  DownloadReleaseAsset := fun _ _ _ => (some ⟨"payload", none⟩, none)

/-- The data source configuration that asks for asset 11 of `octo/repo`. -/
def sampleAssetData : ReleaseAssetData :=
  ⟨"", 11, "octo", "repo", "", "", "", "", "", "", 0, "", "", ""⟩

/-! ## Theorems: identity codec -/

theorem cutAt_append_sep (sep : Char) (a b : List Char) (ha : sep ∉ a) :
    cutAt sep (a ++ sep :: b) = some (a, b) := by
  induction a with
  | nil => simp [cutAt]
  | cons c cs ih =>
    have hc : c ≠ sep := fun h => ha (by simp [h])
    have hcs : sep ∉ cs := fun h => ha (by simp [h])
    simp [cutAt, hc, ih hcs]

theorem cutAt_none (sep : Char) (s : List Char) (hs : sep ∉ s) : cutAt sep s = none := by
  induction s with
  | nil => rfl
  | cons c cs ih =>
    have hc : c ≠ sep := fun h => hs (by simp [h])
    have hcs : sep ∉ cs := fun h => hs (by simp [h])
    simp [cutAt, hc, ih hcs]

theorem parseTwoPartID_of_cut (id : String) (a b : List Char)
    (h : cutAt ':' id.data = some (a, b)) :
    parseTwoPartID id = .ok (String.mk a, String.mk b) := by
  simp [parseTwoPartID, SplitN, h, index, bind, Except.bind]

theorem parseTwoPartID_concat (a b : String) (ha : ':' ∉ a.data) :
    parseTwoPartID (a ++ ":" ++ b) = .ok (a, b) := by
  have h : cutAt ':' (a ++ ":" ++ b).data = some (a.data, b.data) := by
    have := cutAt_append_sep ':' a.data b.data ha
    simpa [String.data_append] using this
  rw [parseTwoPartID_of_cut _ _ _ h]

/-- C1: two-part ID round trip.  For all strings `a` and `b` that do not contain
the separator `:`, `parseTwoPartID(buildTwoPartID(a, b))` returns exactly `(a, b)`. -/
theorem parseTwoPartID_buildTwoPartID (a b : String)
    (ha : ':' ∉ a.data) (_hb : ':' ∉ b.data) :
    (buildTwoPartID (some a) (some b) >>= parseTwoPartID) = .ok (a, b) := by
  show parseTwoPartID (a ++ ":" ++ b) = .ok (a, b)
  exact parseTwoPartID_concat a b ha

theorem parseTwoPartID_buildTwoPartID_witness :
    (buildTwoPartID (some "owner") (some "repo") >>= parseTwoPartID)
      = .ok ("owner", "repo") :=
  parseTwoPartID_buildTwoPartID "owner" "repo" (by decide) (by decide)

/-- C2: an id without any `:` makes `parseTwoPartID` panic on `parts[1]` (index 1
of a one-element slice); no error value is returned to the caller. -/
theorem parseTwoPartID_no_separator (id : String) (h : ':' ∉ id.data) :
    parseTwoPartID id = .error (.indexOutOfRange 1 1) := by
  simp [parseTwoPartID, SplitN, cutAt_none ':' id.data h, index, bind, Except.bind]

theorem parseTwoPartID_no_separator_witness :
    parseTwoPartID "owner" = .error (.indexOutOfRange 1 1) :=
  parseTwoPartID_no_separator "owner" (by decide)

/-- C3, as stated, fails: ids whose first or second segment is empty are parsed
into a pair with an empty component. -/
theorem parseTwoPartID_empty_segment_accepted :
    parseTwoPartID ":repo" = .ok ("", "repo") ∧ parseTwoPartID "owner:" = .ok ("owner", "") := by
  decide

/-- C3, amended: for every id `a ++ ":" ++ b` whose first segment `a` holds no `:`,
`parseTwoPartID` returns the pair `(a, b)`, also when `a` or `b` is empty. -/
theorem parseTwoPartID_returns_segments (a b : String) (ha : ':' ∉ a.data) :
    parseTwoPartID (a ++ ":" ++ b) = .ok (a, b) :=
  parseTwoPartID_concat a b ha

theorem parseTwoPartID_returns_segments_witness :
    parseTwoPartID ("" ++ ":" ++ "repo") = .ok ("", "repo") :=
  parseTwoPartID_returns_segments "" "repo" (by decide)

/-- C4, as stated, fails: a part that contains `:` is joined like any other. -/
theorem buildTwoPartID_accepts_separator :
    ':' ∈ "a:b".data ∧ buildTwoPartID (some "a:b") (some "c") = .ok "a:b:c" := by
  decide

/-- C4, amended: for all strings `a` and `b`, also when one of them contains `:`,
`buildTwoPartID(a, b)` produces the id `a ++ ":" ++ b` and reports no failure. -/
theorem buildTwoPartID_total (a b : String) :
    buildTwoPartID (some a) (some b) = .ok (a ++ ":" ++ b) := rfl

/-- C5: `fromGithubID` asks `strconv.FormatInt` for base 64, which is outside
2..36, so it panics for every number instead of returning the decimal string. -/
theorem fromGithubID_panics (n : Int) :
    fromGithubID (some n) = .error .illegalFormatBase := rfl

theorem ParseInt_cases (s : String) :
    ParseInt s 10 64 = (0, some .ErrSyntax) ∨
    ParseInt s 10 64
      = (if s.data.head? = some '-' then -2 ^ 63 else 2 ^ 63 - 1, some .ErrRange) ∨
    (ParseInt s 10 64).2 = none := by
  unfold ParseInt
  rcases s.data with _ | ⟨c, cs⟩
  · simp
  · simp only
    generalize ParseUint (if c = '+' ∨ c = '-' then cs else c :: cs) 10 64 = r
    obtain ⟨un, err⟩ := r
    by_cases hneg : c = '-'
    · cases err with
      | none => simp only; split_ifs <;> simp_all
      | some e => cases e <;> simp only <;> (try split_ifs) <;> simp_all
    · cases err with
      | none => simp only; split_ifs <;> simp_all
      | some e => cases e <;> simp only <;> (try split_ifs) <;> simp_all

theorem digit_val_lt (c : Char) (h : '0' ≤ c ∧ c ≤ '9') :
    digitVal c = some (c.toNat - '0'.toNat) ∧ c.toNat - '0'.toNat < 10 := by
  have h2 : c.toNat ≤ '9'.toNat := h.2
  have h9 : '9'.toNat = 57 := by decide
  have h0 : '0'.toNat = 48 := by decide
  refine ⟨by simp [digitVal, h], by omega⟩

theorem digit_not_sign (c : Char) (h : '0' ≤ c ∧ c ≤ '9') : c ≠ '-' ∧ c ≠ '+' := by
  have h1 : '0'.toNat ≤ c.toNat := h.1
  constructor
  · rintro rfl; revert h1; decide
  · rintro rfl; revert h1; decide

theorem le_decimalValueFrom (ds : List Char) (n : Nat) : n ≤ decimalValueFrom n ds := by
  induction ds generalizing n with
  | nil => exact Nat.le_refl n
  | cons c cs ih =>
    have := ih (n * 10 + (c.toNat - '0'.toNat))
    simp only [decimalValueFrom, List.foldl_cons] at this ⊢
    omega

theorem parseUintLoop_digits (ds : List Char) (hds : ∀ c ∈ ds, '0' ≤ c ∧ c ≤ '9') :
    ∀ n, n < 2 ^ 64 →
      parseUintLoop 10 64 ds n
        = if decimalValueFrom n ds < 2 ^ 64 then (decimalValueFrom n ds, none)
          else (2 ^ 64 - 1, some .ErrRange) := by
  induction ds with
  | nil => intro n hn; simp only [parseUintLoop, decimalValueFrom, List.foldl_nil, hn, if_true]
  | cons c cs ih =>
    intro n hn
    obtain ⟨hv, hlt⟩ := digit_val_lt c (hds c (by simp))
    have hcs : ∀ x ∈ cs, '0' ≤ x ∧ x ≤ '9' := fun x hx => hds x (by simp [hx])
    have hmono := le_decimalValueFrom cs (n * 10 + (c.toNat - '0'.toNat))
    have hstep : decimalValueFrom n (c :: cs)
        = decimalValueFrom (n * 10 + (c.toNat - '0'.toNat)) cs := rfl
    have ih' := ih hcs (n * 10 + (c.toNat - '0'.toNat))
    rw [hstep]
    unfold parseUintLoop
    simp only [hv]
    generalize decimalValueFrom (n * 10 + (c.toNat - '0'.toNat)) cs = w at hmono ih' ⊢
    generalize c.toNat - '0'.toNat = dgt at hlt hmono ih' ⊢
    norm_num at hn ih' ⊢
    split_ifs at ih' ⊢ <;> first | rfl | omega | exact ih' (by omega)

theorem ParseInt_numeral (ds : List Char) (hne : ds ≠ [])
    (hds : ∀ c ∈ ds, '0' ≤ c ∧ c ≤ '9') :
    ParseInt (String.mk ds) 10 64
      = if decimalValue ds ≤ 2 ^ 63 - 1 then ((decimalValue ds : Int), none)
        else (2 ^ 63 - 1, some .ErrRange) := by
  obtain ⟨c, cs, rfl⟩ := List.exists_cons_of_ne_nil hne
  obtain ⟨h1, h2⟩ := digit_not_sign c (hds c (by simp))
  have hloop := parseUintLoop_digits (c :: cs) hds 0 (by norm_num)
  unfold ParseInt ParseUint decimalValue
  simp only [h1, h2, or_self, if_false, hloop]
  generalize decimalValueFrom 0 (c :: cs) = v
  norm_num
  split_ifs <;> simp_all <;> omega

theorem ParseInt_negative_numeral (ds : List Char) (hne : ds ≠ [])
    (hds : ∀ c ∈ ds, '0' ≤ c ∧ c ≤ '9') :
    ParseInt (String.mk ('-' :: ds)) 10 64
      = if decimalValue ds ≤ 2 ^ 63 then (-(decimalValue ds : Int), none)
        else (-2 ^ 63, some .ErrRange) := by
  obtain ⟨c, cs, rfl⟩ := List.exists_cons_of_ne_nil hne
  have hloop := parseUintLoop_digits (c :: cs) hds 0 (by norm_num)
  unfold ParseInt ParseUint decimalValue
  simp only [or_true, if_true, hloop]
  generalize decimalValueFrom 0 (c :: cs) = v
  norm_num
  split_ifs <;> simp_all
  omega

theorem digitVal_not_decimal (c : Char) (h : ¬ ('0' ≤ c ∧ c ≤ '9')) :
    digitVal c = none ∨ ∃ d, digitVal c = some d ∧ d ≥ 10 := by
  unfold digitVal
  split_ifs
  · exact Or.inr ⟨_, rfl, by omega⟩
  · exact Or.inr ⟨_, rfl, by omega⟩
  · exact Or.inl rfl

theorem parseUintLoop_bad_char (c : Char) (rest : List Char) (hc : ¬ ('0' ≤ c ∧ c ≤ '9'))
    (ds : List Char) (hds : ∀ x ∈ ds, '0' ≤ x ∧ x ≤ '9') :
    ∀ n, decimalValueFrom n ds < 2 ^ 64 →
      parseUintLoop 10 64 (ds ++ c :: rest) n = (0, some .ErrSyntax) := by
  induction ds with
  | nil =>
    intro n _
    rcases digitVal_not_decimal c hc with h | ⟨d, h, hd⟩
    · simp [parseUintLoop, h]
    · simp [parseUintLoop, h, hd]
  | cons x xs ih =>
    intro n hn
    obtain ⟨hv, hlt⟩ := digit_val_lt x (hds x (by simp))
    have hxs : ∀ y ∈ xs, '0' ≤ y ∧ y ≤ '9' := fun y hy => hds y (by simp [hy])
    have hmono := le_decimalValueFrom xs (n * 10 + (x.toNat - '0'.toNat))
    have hstep : decimalValueFrom n (x :: xs)
        = decimalValueFrom (n * 10 + (x.toNat - '0'.toNat)) xs := rfl
    rw [hstep] at hn
    have ih' := ih hxs (n * 10 + (x.toNat - '0'.toNat)) hn
    rw [List.cons_append]
    unfold parseUintLoop
    simp only [hv]
    generalize decimalValueFrom (n * 10 + (x.toNat - '0'.toNat)) xs = w at hmono hn
    generalize x.toNat - '0'.toNat = dgt at hlt hmono ih' ⊢
    norm_num at hn ⊢
    split_ifs <;> first | rfl | omega | exact ih' | exact fun _ => ih'

theorem ParseInt_bad_char (ds : List Char) (c : Char) (rest : List Char)
    (hds : ∀ x ∈ ds, '0' ≤ x ∧ x ≤ '9') (hc : ¬ ('0' ≤ c ∧ c ≤ '9'))
    (hsign : ds ≠ [] ∨ (c ≠ '+' ∧ c ≠ '-')) (hv : decimalValue ds < 2 ^ 64) :
    ParseInt (String.mk (ds ++ c :: rest)) 10 64 = (0, some .ErrSyntax) := by
  have hloop := parseUintLoop_bad_char c rest hc ds hds 0 hv
  cases ds with
  | nil =>
    have hs : c ≠ '+' ∧ c ≠ '-' := hsign.resolve_left (fun h => h rfl)
    simp only [List.nil_append] at hloop
    simp [ParseInt, ParseUint, hs.1, hs.2, hloop]
  | cons x xs =>
    obtain ⟨h1, h2⟩ := digit_not_sign x (hds x (by simp))
    simp only [List.cons_append] at hloop
    simp [ParseInt, ParseUint, h1, h2, hloop]

/-- C6, as stated, fails: `"abc"` is not a base-10 int64 (`ParseInt` reports a syntax
error) and `toGithubID` returns the number 0 for it. -/
theorem toGithubID_invalid_returns_zero :
    (ParseInt "abc" 10 64).2 = some .ErrSyntax ∧ toGithubID "abc" = 0 := by
  decide

/-- C6, amended: for every string `s` that `strconv.ParseInt(s, 10, 64)` rejects,
`toGithubID(s)` reports nothing and returns a number: 0 when the rejection is a
syntax error, and on a range error the int64 bound on the side of the sign, 2^63 - 1
when `s` has no leading `-` and -2^63 when it has.  In particular a string of decimal
digits that writes a number above 2^63 - 1 is a range error and gives 2^63 - 1, and
`-` followed by digits that write a number above 2^63 is a range error and gives
-2^63; decimal digits that write a number below 2^64, followed by a character that
is not a decimal digit (and is not a sign in first place), are a syntax error and
give 0. -/
theorem toGithubID_invalid :
    (∀ s : String, (ParseInt s 10 64).2 ≠ none →
      ((ParseInt s 10 64).2 = some .ErrSyntax ∧ toGithubID s = 0) ∨
      ((ParseInt s 10 64).2 = some .ErrRange ∧
        toGithubID s = if s.data.head? = some '-' then -2 ^ 63 else 2 ^ 63 - 1)) ∧
    (∀ ds : List Char, ds ≠ [] → (∀ c ∈ ds, '0' ≤ c ∧ c ≤ '9') →
      (2 ^ 63 - 1 < decimalValue ds →
        (ParseInt (String.mk ds) 10 64).2 = some .ErrRange ∧
        toGithubID (String.mk ds) = 2 ^ 63 - 1) ∧
      (2 ^ 63 < decimalValue ds →
        (ParseInt (String.mk ('-' :: ds)) 10 64).2 = some .ErrRange ∧
        toGithubID (String.mk ('-' :: ds)) = -2 ^ 63)) ∧
    (∀ (ds : List Char) (c : Char) (rest : List Char),
      (∀ x ∈ ds, '0' ≤ x ∧ x ≤ '9') → ¬ ('0' ≤ c ∧ c ≤ '9') →
      (ds ≠ [] ∨ (c ≠ '+' ∧ c ≠ '-')) → decimalValue ds < 2 ^ 64 →
      (ParseInt (String.mk (ds ++ c :: rest)) 10 64).2 = some .ErrSyntax ∧
      toGithubID (String.mk (ds ++ c :: rest)) = 0) := by
  refine ⟨?_, ?_, ?_⟩
  · intro s h
    unfold toGithubID
    rcases ParseInt_cases s with h0 | h0 | h0
    · left; simp [h0]
    · right; simp [h0]
    · exact absurd h0 h
  · intro ds hne hds
    constructor
    · intro hv
      have hnot : ¬ decimalValue ds ≤ 2 ^ 63 - 1 := by omega
      rw [toGithubID, ParseInt_numeral ds hne hds, if_neg hnot]
      exact ⟨rfl, rfl⟩
    · intro hv
      have hnot : ¬ decimalValue ds ≤ 2 ^ 63 := by omega
      rw [toGithubID, ParseInt_negative_numeral ds hne hds, if_neg hnot]
      exact ⟨rfl, rfl⟩
  · intro ds c rest hds hc hsign hv
    rw [toGithubID, ParseInt_bad_char ds c rest hds hc hsign hv]
    exact ⟨rfl, rfl⟩

theorem toGithubID_invalid_witness :
    (((ParseInt "abc" 10 64).2 = some .ErrSyntax ∧ toGithubID "abc" = 0) ∨
      ((ParseInt "abc" 10 64).2 = some .ErrRange ∧
        toGithubID "abc" = if "abc".data.head? = some '-' then -2 ^ 63 else 2 ^ 63 - 1)) ∧
    (((ParseInt "99999999999999999999x" 10 64).2 = some .ErrSyntax ∧
        toGithubID "99999999999999999999x" = 0) ∨
      ((ParseInt "99999999999999999999x" 10 64).2 = some .ErrRange ∧
        toGithubID "99999999999999999999x"
          = if "99999999999999999999x".data.head? = some '-' then -2 ^ 63 else 2 ^ 63 - 1)) ∧
    ((ParseInt (String.mk "9223372036854775808".data) 10 64).2 = some .ErrRange ∧
      toGithubID (String.mk "9223372036854775808".data) = 2 ^ 63 - 1) ∧
    ((ParseInt (String.mk ('-' :: "9223372036854775809".data)) 10 64).2 = some .ErrRange ∧
      toGithubID (String.mk ('-' :: "9223372036854775809".data)) = -2 ^ 63) ∧
    ((ParseInt (String.mk ("12".data ++ 'x' :: "y".data)) 10 64).2 = some .ErrSyntax ∧
      toGithubID (String.mk ("12".data ++ 'x' :: "y".data)) = 0) :=
  ⟨toGithubID_invalid.1 "abc" (by decide),
   toGithubID_invalid.1 "99999999999999999999x" (by decide),
   (toGithubID_invalid.2.1 "9223372036854775808".data (by decide) (by decide)).1 (by decide),
   (toGithubID_invalid.2.1 "9223372036854775809".data (by decide) (by decide)).2 (by decide),
   toGithubID_invalid.2.2 "12".data 'x' "y".data (by decide) (by decide) (by decide)
    (by decide)⟩

/-! ## Theorems: read and delete paths -/

theorem webhookRead_surfaces_error (E : Env) (d : WebhookData) (m : Owner) (hookID : Int)
    (hook : Option Hook) (resp : Option Response) (err : GoError)
    (hOrg : E.checkOrganization m = none)
    (hId : ParseInt d.id 10 64 = (hookID, none))
    (hGet : m.v3client.GetHook (webhookReadCtx d) m.name hookID = (hook, resp, some err))
    (h304 : err ≠ .errorResponse StatusNotModified)
    (h404 : err ≠ .errorResponse StatusNotFound) :
    (resourceGithubOrganizationWebhookRead E d m).ret = .ok (some err) := by
  cases err with
  | errorResponse code =>
    have h1 : code ≠ StatusNotModified := fun h => h304 (by rw [h])
    have h2 : code ≠ StatusNotFound := fun h => h404 (by rw [h])
    simp [resourceGithubOrganizationWebhookRead, hOrg, hId, hGet, h1, h2]
  | _ =>
    simp [resourceGithubOrganizationWebhookRead, hOrg, hId, hGet]

/-- C7: `resourceGithubUserSshSigningKeyRead` does not surface a remote error that is
neither 304 nor 404.  On an HTTP 500 error response it returns nil and overwrites
etag, title and key with empty strings; on a transport error (no response) it
panics on `resp.Header`.  In neither case does the caller get the error. -/
theorem sshSigningKeyRead_hides_remote_error :
    (resourceGithubUserSshSigningKeyRead sampleEnv sampleSshSigningKey
        ⟨"octo", statusClient 500⟩).ret = .ok none ∧
    (resourceGithubUserSshSigningKeyRead sampleEnv sampleSshSigningKey
        ⟨"octo", statusClient 500⟩).d = ⟨"7", false, "", "", ""⟩ ∧
    (resourceGithubUserSshSigningKeyRead sampleEnv sampleSshSigningKey
        ⟨"octo", transportErrorClient⟩).ret = .error .nilDereference := by
  decide

/-- C8, as stated, fails: when the remote delete call reports HTTP 404, both Delete
functions return that error, not nil. -/
theorem delete_not_found_is_error :
    (resourceGithubOrganizationWebhookDelete sampleEnv sampleWebhook
        ⟨"octo", statusClient 404⟩).ret = .ok (some (.errorResponse 404)) ∧
    (resourceGithubUserSshSigningKeyDelete sampleEnv sampleSshSigningKey
        ⟨"octo", statusClient 404⟩).ret = .ok (some (.errorResponse 404)) := by
  decide

/-- C8, amended: with a parseable stored ID (and, for the webhook, a passing
organization check), Delete returns exactly the error of the remote delete call:
nil when the remote call returns nil, and the 404 error itself when the remote
reports that the object does not exist. -/
theorem delete_returns_remote_error :
    (∀ (E : Env) (d : WebhookData) (m : Owner) (hookID : Int),
      E.checkOrganization m = none → ParseInt d.id 10 64 = (hookID, none) →
      (resourceGithubOrganizationWebhookDelete E d m).ret
        = .ok (m.v3client.DeleteHook ⟨some d.id, none⟩ m.name hookID).2) ∧
    (∀ (E : Env) (d : SshSigningKeyData) (m : Owner) (id : Int),
      ParseInt d.id 10 64 = (id, none) →
      (resourceGithubUserSshSigningKeyDelete E d m).ret
        = .ok (m.v3client.DeleteSSHSigningKey ⟨some d.id, none⟩ id).2) := by
  constructor
  · intro E d m hookID hOrg hId
    simp [resourceGithubOrganizationWebhookDelete, hOrg, hId]
  · intro E d m id hId
    simp [resourceGithubUserSshSigningKeyDelete, hId]

theorem delete_returns_remote_error_witness :
    (resourceGithubOrganizationWebhookDelete sampleEnv sampleWebhook
        ⟨"octo", statusClient 404⟩).ret = .ok (some (.errorResponse 404)) ∧
    (resourceGithubUserSshSigningKeyDelete sampleEnv sampleSshSigningKey
        ⟨"octo", statusClient 404⟩).ret = .ok (some (.errorResponse 404)) :=
  ⟨delete_returns_remote_error.1 sampleEnv sampleWebhook ⟨"octo", statusClient 404⟩ 7
      rfl (by decide),
   delete_returns_remote_error.2 sampleEnv sampleSshSigningKey ⟨"octo", statusClient 404⟩ 7
      (by decide)⟩

/-- C9: read after out-of-band deletion.  With a parseable stored ID, when the remote
Get returns an error response with HTTP status 404, both Read functions return nil
and clear the stored ID to the empty string (every other attribute is kept). -/
theorem read_not_found_clears_id :
    (∀ (E : Env) (d : WebhookData) (m : Owner) (hookID : Int)
        (hook : Option Hook) (resp : Option Response),
      E.checkOrganization m = none → ParseInt d.id 10 64 = (hookID, none) →
      m.v3client.GetHook (webhookReadCtx d) m.name hookID
        = (hook, resp, some (.errorResponse StatusNotFound)) →
      (resourceGithubOrganizationWebhookRead E d m).ret = .ok none ∧
      (resourceGithubOrganizationWebhookRead E d m).d = { d with id := "" }) ∧
    (∀ (E : Env) (d : SshSigningKeyData) (m : Owner) (id : Int)
        (key : Option SSHSigningKey) (resp : Option Response),
      ParseInt d.id 10 64 = (id, none) →
      m.v3client.GetSSHSigningKey (sshSigningKeyReadCtx d) id
        = (key, resp, some (.errorResponse StatusNotFound)) →
      (resourceGithubUserSshSigningKeyRead E d m).ret = .ok none ∧
      (resourceGithubUserSshSigningKeyRead E d m).d = { d with id := "" }) := by
  constructor
  · intro E d m hookID hook resp hOrg hId hGet
    simp [resourceGithubOrganizationWebhookRead, hOrg, hId, hGet, StatusNotModified,
      StatusNotFound]
  · intro E d m id key resp hId hGet
    simp [resourceGithubUserSshSigningKeyRead, hId, hGet, StatusNotModified, StatusNotFound]

theorem read_not_found_clears_id_witness :
    ((resourceGithubOrganizationWebhookRead sampleEnv sampleWebhook
        ⟨"octo", statusClient 404⟩).ret = .ok none ∧
      (resourceGithubOrganizationWebhookRead sampleEnv sampleWebhook
        ⟨"octo", statusClient 404⟩).d = { sampleWebhook with id := "" }) ∧
    ((resourceGithubUserSshSigningKeyRead sampleEnv sampleSshSigningKey
        ⟨"octo", statusClient 404⟩).ret = .ok none ∧
      (resourceGithubUserSshSigningKeyRead sampleEnv sampleSshSigningKey
        ⟨"octo", statusClient 404⟩).d = { sampleSshSigningKey with id := "" }) :=
  ⟨read_not_found_clears_id.1 sampleEnv sampleWebhook ⟨"octo", statusClient 404⟩ 7
      none (some ⟨404, ""⟩) rfl (by decide) rfl,
   read_not_found_clears_id.2 sampleEnv sampleSshSigningKey ⟨"octo", statusClient 404⟩ 7
      none (some ⟨404, ""⟩) (by decide) rfl⟩

/-- C10: conditional read is a no-op on NotModified.  With a parseable stored ID, when
the remote Get returns an error response with HTTP status 304, both Read functions
return nil and leave the resource data (ID, etag and every other attribute) unchanged. -/
theorem read_not_modified_is_noop :
    (∀ (E : Env) (d : WebhookData) (m : Owner) (hookID : Int)
        (hook : Option Hook) (resp : Option Response),
      E.checkOrganization m = none → ParseInt d.id 10 64 = (hookID, none) →
      m.v3client.GetHook (webhookReadCtx d) m.name hookID
        = (hook, resp, some (.errorResponse StatusNotModified)) →
      (resourceGithubOrganizationWebhookRead E d m).ret = .ok none ∧
      (resourceGithubOrganizationWebhookRead E d m).d = d) ∧
    (∀ (E : Env) (d : SshSigningKeyData) (m : Owner) (id : Int)
        (key : Option SSHSigningKey) (resp : Option Response),
      ParseInt d.id 10 64 = (id, none) →
      m.v3client.GetSSHSigningKey (sshSigningKeyReadCtx d) id
        = (key, resp, some (.errorResponse StatusNotModified)) →
      (resourceGithubUserSshSigningKeyRead E d m).ret = .ok none ∧
      (resourceGithubUserSshSigningKeyRead E d m).d = d) := by
  constructor
  · intro E d m hookID hook resp hOrg hId hGet
    simp [resourceGithubOrganizationWebhookRead, hOrg, hId, hGet]
  · intro E d m id key resp hId hGet
    simp [resourceGithubUserSshSigningKeyRead, hId, hGet]

theorem read_not_modified_is_noop_witness :
    ((resourceGithubOrganizationWebhookRead sampleEnv sampleWebhook
        ⟨"octo", statusClient 304⟩).ret = .ok none ∧
      (resourceGithubOrganizationWebhookRead sampleEnv sampleWebhook
        ⟨"octo", statusClient 304⟩).d = sampleWebhook) ∧
    ((resourceGithubUserSshSigningKeyRead sampleEnv sampleSshSigningKey
        ⟨"octo", statusClient 304⟩).ret = .ok none ∧
      (resourceGithubUserSshSigningKeyRead sampleEnv sampleSshSigningKey
        ⟨"octo", statusClient 304⟩).d = sampleSshSigningKey) :=
  ⟨read_not_modified_is_noop.1 sampleEnv sampleWebhook ⟨"octo", statusClient 304⟩ 7
      none (some ⟨304, ""⟩) rfl (by decide) rfl,
   read_not_modified_is_noop.2 sampleEnv sampleSshSigningKey ⟨"octo", statusClient 304⟩ 7
      none (some ⟨304, ""⟩) (by decide) rfl⟩

/-! ## Theorems: local validation of the stored ID -/

theorem ParseInt_error (id : String) (h : (ParseInt id 10 64).2 ≠ none) :
    ∃ v err, ParseInt id 10 64 = (v, some err) := by
  rcases hp : ParseInt id 10 64 with ⟨v, err⟩
  cases err with
  | none => simp [hp] at h
  | some e => exact ⟨v, e, rfl⟩

/-- C12: local validation errors never reach the remote system.  If the stored ID is
not a valid base-10 int64, then the organization-webhook Read, Update and Delete and
the SSH-signing-key Read and Delete each return an error and issue no remote call. -/
theorem unparseable_id_no_remote_call :
    (∀ (E : Env) (d : WebhookData) (m : Owner), (ParseInt d.id 10 64).2 ≠ none →
      (∃ e, (resourceGithubOrganizationWebhookRead E d m).ret = .ok (some e)) ∧
      (resourceGithubOrganizationWebhookRead E d m).calls = []) ∧
    (∀ (E : Env) (d : WebhookData) (m : Owner), (ParseInt d.id 10 64).2 ≠ none →
      (∃ e, (resourceGithubOrganizationWebhookUpdate E d m).ret = .ok (some e)) ∧
      (resourceGithubOrganizationWebhookUpdate E d m).calls = []) ∧
    (∀ (E : Env) (d : WebhookData) (m : Owner), (ParseInt d.id 10 64).2 ≠ none →
      (∃ e, (resourceGithubOrganizationWebhookDelete E d m).ret = .ok (some e)) ∧
      (resourceGithubOrganizationWebhookDelete E d m).calls = []) ∧
    (∀ (E : Env) (d : SshSigningKeyData) (m : Owner), (ParseInt d.id 10 64).2 ≠ none →
      (∃ e, (resourceGithubUserSshSigningKeyRead E d m).ret = .ok (some e)) ∧
      (resourceGithubUserSshSigningKeyRead E d m).calls = []) ∧
    (∀ (E : Env) (d : SshSigningKeyData) (m : Owner), (ParseInt d.id 10 64).2 ≠ none →
      (∃ e, (resourceGithubUserSshSigningKeyDelete E d m).ret = .ok (some e)) ∧
      (resourceGithubUserSshSigningKeyDelete E d m).calls = []) := by
  refine ⟨?_, ?_, ?_, ?_, ?_⟩
  · intro E d m h
    obtain ⟨v, err, hp⟩ := ParseInt_error d.id h
    cases hOrg : E.checkOrganization m <;>
      simp [resourceGithubOrganizationWebhookRead, hOrg, hp]
  · intro E d m h
    obtain ⟨v, err, hp⟩ := ParseInt_error d.id h
    cases hOrg : E.checkOrganization m <;>
      simp [resourceGithubOrganizationWebhookUpdate, hOrg, hp]
  · intro E d m h
    obtain ⟨v, err, hp⟩ := ParseInt_error d.id h
    cases hOrg : E.checkOrganization m <;>
      simp [resourceGithubOrganizationWebhookDelete, hOrg, hp]
  · intro E d m h
    obtain ⟨v, err, hp⟩ := ParseInt_error d.id h
    simp [resourceGithubUserSshSigningKeyRead, hp]
  · intro E d m h
    obtain ⟨v, err, hp⟩ := ParseInt_error d.id h
    simp [resourceGithubUserSshSigningKeyDelete, hp]

theorem unparseable_id_no_remote_call_witness :
    ((∃ e, (resourceGithubOrganizationWebhookRead sampleEnv { sampleWebhook with id := "x7" }
        ⟨"octo", statusClient 200⟩).ret = .ok (some e)) ∧
      (resourceGithubOrganizationWebhookRead sampleEnv { sampleWebhook with id := "x7" }
        ⟨"octo", statusClient 200⟩).calls = []) ∧
    ((∃ e, (resourceGithubOrganizationWebhookUpdate sampleEnv { sampleWebhook with id := "" }
        ⟨"octo", statusClient 200⟩).ret = .ok (some e)) ∧
      (resourceGithubOrganizationWebhookUpdate sampleEnv { sampleWebhook with id := "" }
        ⟨"octo", statusClient 200⟩).calls = []) ∧
    ((∃ e, (resourceGithubOrganizationWebhookDelete sampleEnv
        { sampleWebhook with id := "9223372036854775808" }
        ⟨"octo", statusClient 200⟩).ret = .ok (some e)) ∧
      (resourceGithubOrganizationWebhookDelete sampleEnv
        { sampleWebhook with id := "9223372036854775808" }
        ⟨"octo", statusClient 200⟩).calls = []) ∧
    ((∃ e, (resourceGithubUserSshSigningKeyRead sampleEnv
        { sampleSshSigningKey with id := "7a" } ⟨"octo", statusClient 200⟩).ret
          = .ok (some e)) ∧
      (resourceGithubUserSshSigningKeyRead sampleEnv
        { sampleSshSigningKey with id := "7a" } ⟨"octo", statusClient 200⟩).calls = []) ∧
    ((∃ e, (resourceGithubUserSshSigningKeyDelete sampleEnv
        { sampleSshSigningKey with id := "key" } ⟨"octo", statusClient 200⟩).ret
          = .ok (some e)) ∧
      (resourceGithubUserSshSigningKeyDelete sampleEnv
        { sampleSshSigningKey with id := "key" } ⟨"octo", statusClient 200⟩).calls = []) :=
  ⟨unparseable_id_no_remote_call.1 sampleEnv _ _ (by decide),
   unparseable_id_no_remote_call.2.1 sampleEnv _ _ (by decide),
   unparseable_id_no_remote_call.2.2.1 sampleEnv _ _ (by decide),
   unparseable_id_no_remote_call.2.2.2.1 sampleEnv _ _ (by decide),
   unparseable_id_no_remote_call.2.2.2.2 sampleEnv _ _ (by decide)⟩

/-! ## Theorems: webhook secret -/

theorem webhookRead_keeps_state_secret (E : Env) (d : WebhookData) (m : Owner)
    (hookID : Int) (h : Hook) (resp : Option Response) (current : WebhookConfiguration)
    (rest : List WebhookConfiguration) (hc : HookConfig)
    (hOrg : E.checkOrganization m = none) (hId : ParseInt d.id 10 64 = (hookID, none))
    (hGet : m.v3client.GetHook (webhookReadCtx d) m.name hookID = (some h, resp, none))
    (hcfg : d.configuration = current :: rest) (hhc : h.config = some hc)
    (hsecret : hc.secret ≠ none)
    (hsucc : (resourceGithubOrganizationWebhookRead E d m).ret = .ok none) :
    (resourceGithubOrganizationWebhookRead E d m).d.configuration
      = E.expandWebhookConfig (some { hc with secret := some current.secret }) := by
  unfold resourceGithubOrganizationWebhookRead at hsucc ⊢
  simp only [hOrg, hId, hGet] at hsucc ⊢
  unfold webhookReadStore at hsucc ⊢
  cases resp with
  | none => simp at hsucc
  | some r =>
    rcases h1 : E.setError "etag" with _ | e <;> simp [setOrReturn, h1] at hsucc ⊢
    rcases h2 : E.setError "url" with _ | e <;> simp [h2] at hsucc ⊢
    rcases h3 : E.setError "active" with _ | e <;> simp [h3] at hsucc ⊢
    rcases h4 : E.setError "events" with _ | e <;> simp [h4] at hsucc ⊢
    rcases h5 : E.setError "configuration" with _ | e <;>
      simp [h5, hcfg, hhc, hsecret] at hsucc ⊢

theorem webhookRead_keeps_state_secret_example :
    (resourceGithubOrganizationWebhookRead sampleEnv sampleWebhook
        ⟨"octo", hookClient maskedHook⟩).d.configuration
      = sampleEnv.expandWebhookConfig
          (some { maskedHookConfig with secret := some "s3cret" }) :=
  webhookRead_keeps_state_secret sampleEnv sampleWebhook ⟨"octo", hookClient maskedHook⟩ 7
    maskedHook (some ⟨200, "W/\"new\""⟩) ⟨"https://example.com/hook", "json", "s3cret", false⟩
    [] maskedHookConfig rfl (by decide) rfl rfl rfl (by decide) (by decide)

theorem webhookCreateWrite_never_nil (E : Env) (d : WebhookData) (m : Owner) :
    (webhookCreateWrite E d m).ret ≠ .ok none ∧
    (webhookCreateWrite E d m).d.configuration = d.configuration := by
  unfold webhookCreateWrite
  cases E.checkOrganization m with
  | some err => simp
  | none =>
    dsimp only
    rcases m.v3client.CreateHook ⟨none, none⟩ m.name (resourceGithubOrganizationWebhookObject E d)
      with ⟨hook, resp, err⟩
    cases err with
    | some e => simp
    | none =>
      cases hcfg : webhookCreateConfig E hook (resourceGithubOrganizationWebhookObject E d) <;>
        simp [FormatInt, hcfg, setHookConfigStruct]

/-- C16: `resourceGithubOrganizationWebhookCreate` does not write the secret of the
request object to state.  It replaces the secret in GitHub's hook configuration by
the request's, as its comment says, but then hands the `*github.HookConfig` struct
itself to `d.Set("configuration", _)`, which the SDK rejects.  So Create never
returns nil and never changes the `configuration` attribute; and whenever GitHub
created the hook and returned its configuration, Create returns the SDK's
`Invalid address to set` error after the one `CreateHook` call, without reading the
hook back. -/
theorem webhookCreate_rejects_configuration :
    (∀ (E : Env) (d : WebhookData) (m : Owner),
      (resourceGithubOrganizationWebhookCreate E d m).ret ≠ .ok none ∧
      (resourceGithubOrganizationWebhookCreate E d m).d.configuration = d.configuration) ∧
    (∀ (E : Env) (d : WebhookData) (m : Owner) (h : Hook) (resp : Option Response)
        (hc rc : HookConfig),
      E.checkOrganization m = none →
      m.v3client.CreateHook ⟨none, none⟩ m.name (resourceGithubOrganizationWebhookObject E d)
        = (some h, resp, none) →
      h.config = some hc → hc.secret ≠ none →
      (resourceGithubOrganizationWebhookObject E d).config = some rc →
      webhookCreateConfig E (some h) (resourceGithubOrganizationWebhookObject E d)
        = .ok (E.insecureSslStringToBool { hc with secret := rc.secret }) ∧
      (resourceGithubOrganizationWebhookCreate E d m).ret
        = .ok (some (.invalidAddress "configuration")) ∧
      (resourceGithubOrganizationWebhookCreate E d m).calls
        = [ApiCall.CreateHook m.name (resourceGithubOrganizationWebhookObject E d)]) := by
  constructor
  · intro E d m
    obtain ⟨hret, hcfg⟩ := webhookCreateWrite_never_nil E d m
    unfold resourceGithubOrganizationWebhookCreate andThenRun
    rcases hr : (webhookCreateWrite E d m).ret with p | (_ | e)
    · simp [hr, hcfg]
    · exact absurd hr hret
    · simp [hr, hcfg]
  · intro E d m h resp hc rc hOrg hCreate hhc hsecret hrc
    have hconfig : webhookCreateConfig E (some h) (resourceGithubOrganizationWebhookObject E d)
        = .ok (E.insecureSslStringToBool { hc with secret := rc.secret }) := by
      simp [webhookCreateConfig, hhc, hsecret, hrc]
    refine ⟨hconfig, ?_, ?_⟩ <;>
      simp [resourceGithubOrganizationWebhookCreate, andThenRun, webhookCreateWrite, hOrg,
        hCreate, FormatInt, hconfig, setHookConfigStruct]

theorem webhookCreate_rejects_configuration_witness :
    webhookCreateConfig sampleEnv (some maskedHook)
        (resourceGithubOrganizationWebhookObject sampleEnv sampleWebhook)
      = .ok (sampleEnv.insecureSslStringToBool
          { maskedHookConfig with secret := some "s3cret" }) ∧
    (resourceGithubOrganizationWebhookCreate sampleEnv sampleWebhook
        ⟨"octo", hookClient maskedHook⟩).ret = .ok (some (.invalidAddress "configuration")) ∧
    (resourceGithubOrganizationWebhookCreate sampleEnv sampleWebhook
        ⟨"octo", hookClient maskedHook⟩).calls
      = [ApiCall.CreateHook "octo"
          (resourceGithubOrganizationWebhookObject sampleEnv sampleWebhook)] :=
  webhookCreate_rejects_configuration.2 sampleEnv sampleWebhook ⟨"octo", hookClient maskedHook⟩
    maskedHook (some ⟨201, "W/\"new\""⟩) maskedHookConfig
    ⟨some "json", some "0", some "https://example.com/hook", some "s3cret"⟩
    rfl rfl rfl (by decide) rfl

/-! ## Theorems: release asset -/

/-- C18: `dataSourceGithubReleaseAssetRead` writes `created_at` twice and `updated_at`
never.  After every successful read of an asset, `created_at` holds the string form
of the asset's `UpdatedAt` timestamp and `updated_at` still holds what it held before
the call. -/
theorem releaseAssetRead_timestamps (E : Env) (d : ReleaseAssetData)
    (client : RepositoriesClient) (a : ReleaseAsset) (c u : Timestamp)
    (hGet : client.GetReleaseAsset d.owner d.repository d.assetId = (some a, none))
    (hc : a.createdAt = some c) (hu : a.updatedAt = some u)
    (hsucc : (dataSourceGithubReleaseAssetRead E d client).ret = .ok none) :
    (dataSourceGithubReleaseAssetRead E d client).d.createdAt = u.text ∧
    (dataSourceGithubReleaseAssetRead E d client).d.updatedAt = d.updatedAt := by
  unfold dataSourceGithubReleaseAssetRead at hsucc ⊢
  simp only [hGet] at hsucc ⊢
  rcases hD : client.DownloadReleaseAsset d.owner d.repository d.assetId with ⟨body, err⟩
  cases err with
  | some e => simp [hD] at hsucc
  | none =>
    cases body with
    | none => simp [hD] at hsucc
    | some rb =>
      simp only [hD] at hsucc ⊢
      cases hre : rb.readError with
      | some e => simp [hre] at hsucc
      | none =>
        simp only [hre] at hsucc ⊢
        unfold releaseAssetStore at hsucc ⊢
        rcases h1 : E.setError "body" with _ | e <;>
          simp [FormatInt, Timestamp.String, hc, hu, setOrReturn, h1] at hsucc ⊢
        rcases h2 : E.setError "url" with _ | e <;> simp [h2] at hsucc ⊢
        rcases h3 : E.setError "node_id" with _ | e <;> simp [h3] at hsucc ⊢
        rcases h4 : E.setError "name" with _ | e <;> simp [h4] at hsucc ⊢
        rcases h5 : E.setError "label" with _ | e <;> simp [h5] at hsucc ⊢
        rcases h6 : E.setError "content_type" with _ | e <;> simp [h6] at hsucc ⊢
        rcases h7 : E.setError "size" with _ | e <;> simp [h7] at hsucc ⊢
        rcases h8 : E.setError "created_at" with _ | e <;> simp [h8] at hsucc ⊢
        rcases h9 : E.setError "browser_download_url" with _ | e <;> simp [h9] at hsucc ⊢

theorem releaseAssetRead_timestamps_witness :
    (dataSourceGithubReleaseAssetRead sampleEnv sampleAssetData assetClient).d.createdAt
      = "2021-06-30 12:00:00 +0000 UTC" ∧
    (dataSourceGithubReleaseAssetRead sampleEnv sampleAssetData assetClient).d.updatedAt = "" :=
  releaseAssetRead_timestamps sampleEnv sampleAssetData assetClient sampleAsset
    ⟨"2020-01-01 00:00:00 +0000 UTC"⟩ ⟨"2021-06-30 12:00:00 +0000 UTC"⟩ rfl rfl rfl
    (by decide)

/-! ## Theorems: code-scanning resource -/

theorem cutAt_eq_some (sep : Char) (s a b : List Char) (h : cutAt sep s = some (a, b)) :
    s = a ++ sep :: b := by
  induction s generalizing a with
  | nil => simp [cutAt] at h
  | cons c cs ih =>
    unfold cutAt at h
    split_ifs at h with hc
    · simp at h
      obtain ⟨rfl, rfl⟩ := h
      simp [hc]
    · cases hcut : cutAt sep cs with
      | none => simp [hcut] at h
      | some ab =>
        obtain ⟨a1, b1⟩ := ab
        simp [hcut] at h
        obtain ⟨rfl, rfl⟩ := h
        simp [ih a1 hcut]

theorem parseTwoPartID3_ok (id l r a b : String)
    (h : parseTwoPartID3 id l r = (a, b, none)) : a ++ ":" ++ b = id := by
  unfold parseTwoPartID3 at h
  cases hcut : cutAt ':' id.data with
  | none => simp [SplitN, hcut] at h
  | some ab =>
    obtain ⟨x, y⟩ := ab
    simp only [SplitN, hcut] at h
    split_ifs at h
    · simp at h
    · simp only [Prod.mk.injEq, and_true] at h
      obtain ⟨rfl, rfl⟩ := h
      have := cutAt_eq_some ':' id.data x y hcut
      apply String.ext
      simp [String.data_append, this]

theorem setIgnoringError_id (E : Env) (key : String) (upd : CodeScanningData → CodeScanningData)
    (d : CodeScanningData) (h : ∀ x, (upd x).id = x.id) :
    (setIgnoringError E key upd d).id = d.id := by
  unfold setIgnoringError
  cases E.setError key <;> simp [h]

theorem codeScanningRead_id {σ : Type} (E : Env) (d : CodeScanningData)
    (m : CodeScanningOwner σ) (s : σ) :
    (resourceGithubRepositoryCodeScanningRead E d m s).d.id = d.id := by
  unfold resourceGithubRepositoryCodeScanningRead
  split
  · rfl
  · dsimp only
    split
    · rfl
    · rfl
    · simp [setIgnoringError_id]

theorem codeScanningUpdate_id {σ : Type} (E : Env) (d : CodeScanningData)
    (m : CodeScanningOwner σ) (s : σ) :
    (resourceGithubRepositoryCodeScanningUpdate E d m s).d.id = d.id := by
  unfold resourceGithubRepositoryCodeScanningUpdate
  split
  · rfl
  · rename_i owner repoName hparse
    dsimp only
    split
    · rfl
    · have hid := parseTwoPartID3_ok _ _ _ _ _ hparse
      simp [setIdAndRead, buildTwoPartID, deref, bind, Except.bind, codeScanningRead_id, hid]

/-- C11: update preserves identity.  Whenever
`resourceGithubRepositoryCodeScanningUpdate` returns success, the stored ID after the
call equals the stored ID before it, whatever the `owner` and `repository`
attributes of the resource data are: the ID is rebuilt from its own two parts. -/
theorem codeScanningUpdate_preserves_id {σ : Type} (E : Env) (d : CodeScanningData)
    (m : CodeScanningOwner σ) (s : σ)
    (_h : (resourceGithubRepositoryCodeScanningUpdate E d m s).ret = .ok none) :
    (resourceGithubRepositoryCodeScanningUpdate E d m s).d.id = d.id :=
  codeScanningUpdate_id E d m s

theorem codeScanningUpdate_preserves_id_witness :
    (resourceGithubRepositoryCodeScanningUpdate sampleEnv renamedCodeScanning
      ⟨"octo", scriptedCodeScanning 0 none sampleConfigured⟩ 0).d.id = "octo:repo" :=
  codeScanningUpdate_preserves_id sampleEnv renamedCodeScanning
    ⟨"octo", scriptedCodeScanning 0 none sampleConfigured⟩ 0 (by decide)

theorem RetryContext_pending {σ : Type} (client : CodeScanningClient σ)
    (owner repoName : String) :
    ∀ (budget : Nat) (s : σ) (r0 : Option GoError),
      (∀ i, i < budget → ∃ conf,
        (client.GetDefaultSetupConfiguration (stateAfterPolls client owner repoName i s)
          ⟨none, none⟩ owner repoName).1 = (some conf, none) ∧
        conf.state = some "not-configured") →
      (RetryContext (codeScanningCreatePoll client owner repoName) budget s r0).ret
        = .ok (some (if budget = 0 then r0.getD timeoutError
            else .other "not configured yet")) ∧
      (RetryContext (codeScanningCreatePoll client owner repoName) budget s r0).calls
        = List.replicate budget
            (CodeScanningCall.GetDefaultSetupConfiguration ⟨none, none⟩ owner repoName) := by
  intro budget
  induction budget with
  | zero => intro s r0 _; exact ⟨rfl, rfl⟩
  | succ n ih =>
    intro s r0 h
    obtain ⟨conf, hget, hstate⟩ := h 0 (by omega)
    rcases hg : client.GetDefaultSetupConfiguration s ⟨none, none⟩ owner repoName
      with ⟨⟨c, e⟩, s1⟩
    simp only [stateAfterPolls, hg, Prod.mk.injEq] at hget
    obtain ⟨rfl, rfl⟩ := hget
    have hrest := ih s1 (some (.other "not configured yet")) (fun i hi => by
      have := h (i + 1) (by omega)
      simpa only [stateAfterPolls, hg] using this)
    have hstep : codeScanningCreatePoll client owner repoName s
        = ⟨.ok (some (RetryableError (.other "not configured yet"))), s1,
            [CodeScanningCall.GetDefaultSetupConfiguration ⟨none, none⟩ owner repoName]⟩ := by
      simp [codeScanningCreatePoll, hg, hstate]
    constructor
    · simp only [RetryContext, hstep, RetryableError, if_true, hrest.1]
      by_cases hn : n = 0 <;> simp [hn]
    · simp only [RetryContext, hstep, RetryableError, if_true, hrest.2]
      rfl

theorem codeScanningCreateWait_timeout {σ : Type} (E : Env) (budget : Nat)
    (d : CodeScanningData) (m : CodeScanningOwner σ) (err : Option GoError) (s1 : σ)
    (calls : List CodeScanningCall)
    (hPoll : ∀ i, i < budget → ∃ conf,
      (m.v3client.GetDefaultSetupConfiguration
        (stateAfterPolls m.v3client m.name d.repository i s1)
        ⟨none, none⟩ m.name d.repository).1 = (some conf, none) ∧
      conf.state = some "not-configured") :
    (∃ e, (codeScanningCreateWait E budget d m err s1 calls).ret = .ok (some e)) ∧
    (codeScanningCreateWait E budget d m err s1 calls).d = d ∧
    (err = none ∨ err = some .acceptedError →
      (codeScanningCreateWait E budget d m err s1 calls).ret
        = .ok (some (.errorf ("Error waiting for default setup configuration (" ++ d.id
            ++ ") to be configured")
            (if budget = 0 then timeoutError else .other "not configured yet"))) ∧
      (codeScanningCreateWait E budget d m err s1 calls).calls
        = calls ++ List.replicate budget
            (CodeScanningCall.GetDefaultSetupConfiguration ⟨none, none⟩ m.name d.repository)) := by
  obtain ⟨hret, hcalls⟩ := RetryContext_pending m.v3client m.name d.repository budget s1 none hPoll
  unfold codeScanningCreateWait
  by_cases hacc : err = none ∨ err = some .acceptedError
  · simp [hacc, hret, hcalls]
  · cases err with
    | none => simp at hacc
    | some e =>
      have hne : e ≠ .acceptedError := fun h => hacc (Or.inr (by rw [h]))
      simp [hne]

/-- C13: convergence timeout leaves no identity.  If each of the `budget` polls that
fit into the retry budget, made one after the other from the remote state the
mutation left, answers a configuration in state `"not-configured"` (whatever the
remote would answer later), then `resourceGithubRepositoryCodeScanningCreate`
returns an error and leaves the resource data, the stored ID included, as it was
before the call.  When the mutation was accepted, the error is the wrapped last
poll error (the timeout error for an empty budget) and the remote calls are the
mutation followed by exactly `budget` polls. -/
theorem codeScanningCreate_timeout_no_id {σ : Type} (E : Env) (budget : Nat)
    (d : CodeScanningData) (m : CodeScanningOwner σ) (s : σ)
    (hPoll : ∀ i, i < budget → ∃ conf,
      (m.v3client.GetDefaultSetupConfiguration
        (stateAfterPolls m.v3client m.name d.repository i
          (m.v3client.UpdateDefaultSetupConfiguration s ⟨none, none⟩ m.name d.repository
            (createUpdateCodeScanning d)).2)
        ⟨none, none⟩ m.name d.repository).1 = (some conf, none) ∧
      conf.state = some "not-configured") :
    (∃ err, (resourceGithubRepositoryCodeScanningCreate E budget d m s).ret = .ok (some err)) ∧
    (resourceGithubRepositoryCodeScanningCreate E budget d m s).d = d ∧
    ((m.v3client.UpdateDefaultSetupConfiguration s ⟨none, none⟩ m.name d.repository
          (createUpdateCodeScanning d)).1 = none ∨
      (m.v3client.UpdateDefaultSetupConfiguration s ⟨none, none⟩ m.name d.repository
          (createUpdateCodeScanning d)).1 = some .acceptedError →
      (resourceGithubRepositoryCodeScanningCreate E budget d m s).ret
        = .ok (some (.errorf ("Error waiting for default setup configuration (" ++ d.id
            ++ ") to be configured")
            (if budget = 0 then timeoutError else .other "not configured yet"))) ∧
      (resourceGithubRepositoryCodeScanningCreate E budget d m s).calls
        = [CodeScanningCall.UpdateDefaultSetupConfiguration ⟨none, none⟩ m.name d.repository
            (createUpdateCodeScanning d)]
          ++ List.replicate budget
            (CodeScanningCall.GetDefaultSetupConfiguration ⟨none, none⟩ m.name d.repository)) :=
  codeScanningCreateWait_timeout E budget d m _ _ _ hPoll

theorem codeScanningCreate_timeout_no_id_witness :
    (∃ err, (resourceGithubRepositoryCodeScanningCreate sampleEnv 3 sampleCodeScanning
      ⟨"octo", scriptedCodeScanning 5 (some .acceptedError) sampleConfigured⟩ 0).ret
        = .ok (some err)) ∧
    (resourceGithubRepositoryCodeScanningCreate sampleEnv 3 sampleCodeScanning
      ⟨"octo", scriptedCodeScanning 5 (some .acceptedError) sampleConfigured⟩ 0).d
        = sampleCodeScanning ∧
    (resourceGithubRepositoryCodeScanningCreate sampleEnv 3 sampleCodeScanning
      ⟨"octo", scriptedCodeScanning 5 (some .acceptedError) sampleConfigured⟩ 0).calls
        = [CodeScanningCall.UpdateDefaultSetupConfiguration ⟨none, none⟩ "octo" "repo"
            (createUpdateCodeScanning sampleCodeScanning)]
          ++ List.replicate 3
            (CodeScanningCall.GetDefaultSetupConfiguration ⟨none, none⟩ "octo" "repo") :=
  have h := codeScanningCreate_timeout_no_id sampleEnv 3 sampleCodeScanning
    ⟨"octo", scriptedCodeScanning 5 (some .acceptedError) sampleConfigured⟩ 0
    (fun i hi => by
      have hi3 : i = 0 ∨ i = 1 ∨ i = 2 := by omega
      rcases hi3 with rfl | rfl | rfl <;> exact ⟨notConfigured, rfl, rfl⟩)
  ⟨h.1, h.2.1, (h.2.2 (Or.inr rfl)).2⟩

theorem parseTwoPartID3_concat (a b l r : String) (ha : ':' ∉ a.data)
    (hane : a ≠ "") (hbne : b ≠ "") :
    parseTwoPartID3 (a ++ ":" ++ b) l r = (a, b, none) := by
  have hcut : cutAt ':' (a ++ ":" ++ b).data = some (a.data, b.data) := by
    have := cutAt_append_sep ':' a.data b.data ha
    simpa [String.data_append] using this
  have ha' : a.data ≠ [] := fun h => hane (String.ext (by simp [h]))
  have hb' : b.data ≠ [] := fun h => hbne (String.ext (by simp [h]))
  unfold parseTwoPartID3
  simp only [SplitN, hcut]
  simp [ha', hb']

theorem codeScanningCreatePoll_scripted_pending (N : Nat) (mutation : Option GoError)
    (conf : DefaultSetupConfiguration) (owner repo : String) (s : Nat) (h : s < N) :
    codeScanningCreatePoll (scriptedCodeScanning N mutation conf) owner repo s
      = ⟨.ok (some (RetryableError (.other "not configured yet"))), s + 1,
          [CodeScanningCall.GetDefaultSetupConfiguration ⟨none, none⟩ owner repo]⟩ := by
  simp [codeScanningCreatePoll, scriptedCodeScanning, h, notConfigured]

theorem codeScanningCreatePoll_scripted_converged (N : Nat) (mutation : Option GoError)
    (conf : DefaultSetupConfiguration) (owner repo st : String) (s : Nat) (h : ¬ s < N)
    (hst : conf.state = some st) (hconv : st ≠ "not-configured") :
    codeScanningCreatePoll (scriptedCodeScanning N mutation conf) owner repo s
      = ⟨.ok none, s + 1,
          [CodeScanningCall.GetDefaultSetupConfiguration ⟨none, none⟩ owner repo]⟩ := by
  simp [codeScanningCreatePoll, scriptedCodeScanning, h, hst, hconv]

theorem RetryContext_scripted (N : Nat) (mutation : Option GoError)
    (conf : DefaultSetupConfiguration) (owner repo st : String)
    (hst : conf.state = some st) (hconv : st ≠ "not-configured") :
    ∀ (k s budget : Nat) (r0 : Option GoError), s + k = N → k < budget →
      RetryContext (codeScanningCreatePoll (scriptedCodeScanning N mutation conf) owner repo)
          budget s r0
        = ⟨.ok none, N + 1, List.replicate (k + 1)
            (CodeScanningCall.GetDefaultSetupConfiguration ⟨none, none⟩ owner repo)⟩ := by
  intro k
  induction k with
  | zero =>
    intro s budget r0 hs hb
    obtain ⟨b, rfl⟩ : ∃ b, budget = b + 1 := ⟨budget - 1, by omega⟩
    have hsN : s = N := by omega
    subst hsN
    simp [RetryContext, codeScanningCreatePoll_scripted_converged s mutation conf owner repo st
      s (by omega) hst hconv]
  | succ k ih =>
    intro s budget r0 hs hb
    obtain ⟨b, rfl⟩ : ∃ b, budget = b + 1 := ⟨budget - 1, by omega⟩
    have hlt : s < N := by omega
    have hrest := ih (s + 1) b (some (.other "not configured yet")) (by omega) (by omega)
    simp [RetryContext, codeScanningCreatePoll_scripted_pending N mutation conf owner repo s hlt,
      RetryableError, hrest, List.replicate_succ]

/-- C14: exact poll count.  Against the scripted remote whose configuration reads
answer `"not-configured"` for the first `N` polls and the converged configuration
`conf` afterwards, with an accepted mutation and `N` within the retry budget,
`resourceGithubRepositoryCodeScanningCreate` issues the mutation, exactly `N + 1`
polls and the one read of the final Read, records the ID `owner:repository`, and
returns success with the attributes taken from `conf`. -/
theorem codeScanningCreate_polls_exactly (E : Env) (N budget : Nat)
    (mutation : Option GoError) (conf : DefaultSetupConfiguration) (d : CodeScanningData)
    (owner st : String)
    (hSet : ∀ key, E.setError key = none)
    (hAcc : mutation = none ∨ mutation = some .acceptedError)
    (hN : N < budget)
    (hst : conf.state = some st) (hconv : st ≠ "not-configured")
    (hOwner : owner ≠ "" ∧ ':' ∉ owner.data) (hRepo : d.repository ≠ "") :
    resourceGithubRepositoryCodeScanningCreate E budget d
        ⟨owner, scriptedCodeScanning N mutation conf⟩ 0
      = ⟨.ok none,
         { d with
            id := owner ++ ":" ++ d.repository
            owner := owner
            state := st
            querySuite := conf.querySuite.getD ""
            languages := conf.languages
            updatedAt := conf.updatedAt.getD "" },
         N + 2,
         [CodeScanningCall.UpdateDefaultSetupConfiguration ⟨none, none⟩ owner d.repository
            (createUpdateCodeScanning d)]
          ++ List.replicate (N + 1)
            (CodeScanningCall.GetDefaultSetupConfiguration ⟨none, none⟩ owner d.repository)
          ++ [CodeScanningCall.GetDefaultSetupConfiguration
            ⟨some (owner ++ ":" ++ d.repository), none⟩ owner d.repository]⟩ := by
  have hw := RetryContext_scripted N mutation conf owner d.repository st hst hconv N 0 budget
    none (by omega) hN
  have hparse := parseTwoPartID3_concat owner d.repository "owner" "repository"
    hOwner.2 hOwner.1 hRepo
  have hup : (match conf.updatedAt with
      | some t => t
      | none => "") = conf.updatedAt.getD "" := by
    cases conf.updatedAt <;> rfl
  have hmut : (scriptedCodeScanning N mutation conf).UpdateDefaultSetupConfiguration 0
      ⟨none, none⟩ owner d.repository (createUpdateCodeScanning d) = (mutation, 0) := rfl
  have hget : (scriptedCodeScanning N mutation conf).GetDefaultSetupConfiguration (N + 1)
      ⟨some (owner ++ ":" ++ d.repository), none⟩ owner d.repository
        = ((some conf, none), N + 2) := by
    simp [scriptedCodeScanning]
  unfold resourceGithubRepositoryCodeScanningCreate codeScanningCreateWait
  simp only [hmut, hw]
  simp [hAcc, setIdAndRead, buildTwoPartID, deref, bind, Except.bind,
    resourceGithubRepositoryCodeScanningRead, hparse, hget, setIgnoringError, hSet, hst, hup]

theorem codeScanningCreate_polls_exactly_witness :
    resourceGithubRepositoryCodeScanningCreate sampleEnv 5 sampleCodeScanning
        ⟨"octo", scriptedCodeScanning 2 (some .acceptedError) sampleConfigured⟩ 0
      = ⟨.ok none,
         { sampleCodeScanning with
            id := "octo" ++ ":" ++ sampleCodeScanning.repository
            owner := "octo"
            state := "configured"
            querySuite := sampleConfigured.querySuite.getD ""
            languages := sampleConfigured.languages
            updatedAt := sampleConfigured.updatedAt.getD "" },
         2 + 2,
         [CodeScanningCall.UpdateDefaultSetupConfiguration ⟨none, none⟩ "octo"
            sampleCodeScanning.repository (createUpdateCodeScanning sampleCodeScanning)]
          ++ List.replicate (2 + 1)
            (CodeScanningCall.GetDefaultSetupConfiguration ⟨none, none⟩ "octo"
              sampleCodeScanning.repository)
          ++ [CodeScanningCall.GetDefaultSetupConfiguration
            ⟨some ("octo" ++ ":" ++ sampleCodeScanning.repository), none⟩ "octo"
              sampleCodeScanning.repository]⟩ :=
  codeScanningCreate_polls_exactly sampleEnv 2 5 (some .acceptedError) sampleConfigured
    sampleCodeScanning "octo" "configured" (fun _ => rfl) (Or.inr rfl) (by decide) rfl
    (by decide) ⟨by decide, by decide⟩ (by decide)

/-- C15: poll status classification.  The retry function of
`waitForCodeQLActionCompleteFunc` returns a non-retryable error carrying
`codeQLWorkflowRunFailure` for the statuses `"failure"`, `"timed out"` and
`"cancelled"`, a retryable error carrying `codeQLWorkflowRunInFlight` for `"queued"`,
`"in progress"` and `"waiting"`, and a non-retryable error carrying the cause when
the resource id is malformed or `GetWorkflowRunByID` fails. -/
theorem waitForCodeQLActionComplete_classification :
    (∀ {σ : Type} (ctx : Ctx) (client : CodeScanningClient σ) (resourceId owner repo : String)
        (runId : Int) (s s1 : σ) (run : WorkflowRun) (status : String),
      parseTwoPartID3 resourceId "owner" "repository" = (owner, repo, none) →
      client.GetWorkflowRunByID s ctx owner repo runId = ((some run, none), s1) →
      run.status = some status →
      (status = "failure" ∨ status = "timed out" ∨ status = "cancelled" →
        (waitForCodeQLActionCompleteFunc ctx client resourceId runId s).result
          = .ok (some (NonRetryableError (.other codeQLWorkflowRunFailure)))) ∧
      (status = "queued" ∨ status = "in progress" ∨ status = "waiting" →
        (waitForCodeQLActionCompleteFunc ctx client resourceId runId s).result
          = .ok (some (RetryableError (.other codeQLWorkflowRunInFlight))))) ∧
    (∀ {σ : Type} (ctx : Ctx) (client : CodeScanningClient σ) (resourceId a b : String)
        (runId : Int) (s : σ) (err : GoError),
      parseTwoPartID3 resourceId "owner" "repository" = (a, b, some err) →
      (waitForCodeQLActionCompleteFunc ctx client resourceId runId s).result
        = .ok (some (NonRetryableError err))) ∧
    (∀ {σ : Type} (ctx : Ctx) (client : CodeScanningClient σ) (resourceId owner repo : String)
        (runId : Int) (s s1 : σ) (run : Option WorkflowRun) (err : GoError),
      parseTwoPartID3 resourceId "owner" "repository" = (owner, repo, none) →
      client.GetWorkflowRunByID s ctx owner repo runId = ((run, some err), s1) →
      (waitForCodeQLActionCompleteFunc ctx client resourceId runId s).result
        = .ok (some (NonRetryableError err))) := by
  refine ⟨?_, ?_, ?_⟩
  · intro σ ctx client resourceId owner repo runId s s1 run status hparse hget hstatus
    constructor
    · intro h
      rcases h with h | h | h <;>
        simp [waitForCodeQLActionCompleteFunc, hparse, hget, hstatus, h]
    · intro h
      rcases h with h | h | h <;>
        simp [waitForCodeQLActionCompleteFunc, hparse, hget, hstatus, h]
  · intro σ ctx client resourceId a b runId s err hparse
    simp [waitForCodeQLActionCompleteFunc, hparse]
  · intro σ ctx client resourceId owner repo runId s s1 run err hparse hget
    simp [waitForCodeQLActionCompleteFunc, hparse, hget]

theorem waitForCodeQLActionComplete_classification_witness :
    (waitForCodeQLActionCompleteFunc ⟨none, none⟩ (workflowStatusClient "timed out")
        "octo:repo" 42 ()).result
      = .ok (some (NonRetryableError (.other codeQLWorkflowRunFailure))) ∧
    (waitForCodeQLActionCompleteFunc ⟨none, none⟩ (workflowStatusClient "in progress")
        "octo:repo" 42 ()).result
      = .ok (some (RetryableError (.other codeQLWorkflowRunInFlight))) ∧
    (waitForCodeQLActionCompleteFunc ⟨none, none⟩ (workflowStatusClient "success")
        "octo" 42 ()).result
      = .ok (some (NonRetryableError (.invalidIdentity "octo"))) :=
  ⟨(waitForCodeQLActionComplete_classification.1 ⟨none, none⟩
      (workflowStatusClient "timed out") "octo:repo" "octo" "repo" 42 () ()
      ⟨some "timed out"⟩ "timed out" (by decide) rfl rfl).1 (by decide),
   (waitForCodeQLActionComplete_classification.1 ⟨none, none⟩
      (workflowStatusClient "in progress") "octo:repo" "octo" "repo" 42 () ()
      ⟨some "in progress"⟩ "in progress" (by decide) rfl rfl).2 (by decide),
   waitForCodeQLActionComplete_classification.2.1 ⟨none, none⟩
      (workflowStatusClient "success") "octo" "" "" 42 () (.invalidIdentity "octo")
      (by decide)⟩

/-- C17, as stated, fails: a workflow run whose status is `"completed"` (or any other
text outside the seven the switch names) makes the retry function return nil. -/
theorem waitForCodeQLActionComplete_unknown_status_completes :
    (waitForCodeQLActionCompleteFunc ⟨none, none⟩ (workflowStatusClient "completed")
        "octo:repo" 42 ()).result = .ok none ∧
    (waitForCodeQLActionCompleteFunc ⟨none, none⟩ (workflowStatusClient "in_progress")
        "octo:repo" 42 ()).result = .ok none := by
  decide

/-- C17, amended: once the workflow run is fetched, the retry function of
`waitForCodeQLActionCompleteFunc` returns nil exactly when the status is none of
`"failure"`, `"timed out"`, `"cancelled"`, `"queued"`, `"in progress"`, `"waiting"`:
for `"success"` and for every status text the switch does not name. -/
theorem waitForCodeQLActionComplete_nil_iff {σ : Type} (ctx : Ctx)
    (client : CodeScanningClient σ) (resourceId owner repo : String) (runId : Int)
    (s s1 : σ) (run : WorkflowRun) (status : String)
    (hparse : parseTwoPartID3 resourceId "owner" "repository" = (owner, repo, none))
    (hget : client.GetWorkflowRunByID s ctx owner repo runId = ((some run, none), s1))
    (hstatus : run.status = some status) :
    (waitForCodeQLActionCompleteFunc ctx client resourceId runId s).result = .ok none ↔
      status ∉ ["failure", "timed out", "cancelled", "queued", "in progress", "waiting"] := by
  by_cases h0 : status = "success"
  · simp [waitForCodeQLActionCompleteFunc, hparse, hget, hstatus, h0]
  · by_cases h1 : status = "failure" ∨ status = "timed out" ∨ status = "cancelled"
    · rcases h1 with h | h | h <;>
        simp [waitForCodeQLActionCompleteFunc, hparse, hget, hstatus, h]
    · by_cases h2 : status = "queued" ∨ status = "in progress" ∨ status = "waiting"
      · rcases h2 with h | h | h <;>
          simp [waitForCodeQLActionCompleteFunc, hparse, hget, hstatus, h]
      · have h1' := h1
        have h2' := h2
        simp only [not_or] at h1' h2'
        simp [waitForCodeQLActionCompleteFunc, hparse, hget, hstatus, h0, h1', h2']

theorem waitForCodeQLActionComplete_nil_iff_witness :
    (waitForCodeQLActionCompleteFunc ⟨none, none⟩ (workflowStatusClient "completed")
        "octo:repo" 42 ()).result = .ok none ↔
      "completed" ∉ ["failure", "timed out", "cancelled", "queued", "in progress", "waiting"] :=
  waitForCodeQLActionComplete_nil_iff ⟨none, none⟩ (workflowStatusClient "completed")
    "octo:repo" "octo" "repo" 42 () () ⟨some "completed"⟩ "completed" (by decide) rfl rfl

/-! ## Theorems: validators -/

theorem validateValueLoop_iff (value : String) (values : List String) :
    validateValueLoop value values = true ↔ value ∈ values := by
  induction values with
  | nil => simp [validateValueLoop]
  | cons role rest ih =>
    unfold validateValueLoop
    by_cases h : value = role
    · simp [h]
    · simp [h, ih]

/-- C19: `validateValueFunc(values)` is a membership validator.  For every list
`values`, every string `v` and key `k` it returns no warning; its error list is empty
exactly when `v` is an element of `values`, and holds exactly one error otherwise. -/
theorem validateValueFunc_membership (values : List String) (v k : String) :
    ∃ errors, validateValueFunc values (.str v) k = .ok ([], errors) ∧
      (errors = [] ↔ v ∈ values) ∧ (v ∉ values → errors.length = 1) := by
  by_cases h : v ∈ values
  · have hl := (validateValueLoop_iff v values).mpr h
    exact ⟨[], by simp [validateValueFunc, hl], by simp [h], fun hn => absurd h hn⟩
  · have hl : validateValueLoop v values = false := by
      cases hv : validateValueLoop v values with
      | false => rfl
      | true => exact absurd ((validateValueLoop_iff v values).mp hv) h
    exact ⟨[.other (v ++ " is an invalid value for argument " ++ k)],
      by simp [validateValueFunc, hl], by simp [h], fun _ => rfl⟩

theorem dropWhile_append_all {α : Type} (f : α → Bool) (p l : List α)
    (hp : ∀ c ∈ p, f c = true) : (p ++ l).dropWhile f = l.dropWhile f := by
  induction p with
  | nil => rfl
  | cons c cs ih =>
    have hc : f c = true := hp c (by simp)
    have hcs : ∀ x ∈ cs, f x = true := fun x hx => hp x (by simp [hx])
    simp [List.dropWhile, hc, ih hcs]

theorem dropWhile_all {α : Type} (f : α → Bool) (p : List α)
    (hp : ∀ c ∈ p, f c = true) : p.dropWhile f = [] := by
  have := dropWhile_append_all f p [] hp
  simpa using this

theorem dropWhile_head_kept {α : Type} (f : α → Bool) (l : List α)
    (h : ∀ c, l.head? = some c → f c = false) : l.dropWhile f = l := by
  cases l with
  | nil => rfl
  | cons c cs => simp [List.dropWhile, h c rfl]

theorem trim_padded (p k s : List Char)
    (hp : ∀ c ∈ p, IsSpace c = true) (hs : ∀ c ∈ s, IsSpace c = true)
    (hhead : ∀ c, k.head? = some c → IsSpace c = false)
    (hlast : ∀ c, k.getLast? = some c → IsSpace c = false) :
    ((p ++ k ++ s).dropWhile IsSpace).rdropWhile IsSpace = k := by
  rw [List.append_assoc, dropWhile_append_all IsSpace p (k ++ s) hp]
  cases k with
  | nil =>
    simp [dropWhile_all IsSpace s hs, List.rdropWhile]
  | cons c cs =>
    rw [dropWhile_head_kept IsSpace (c :: cs ++ s) (fun x hx => hhead x (by simpa using hx))]
    unfold List.rdropWhile
    rw [List.reverse_append,
      dropWhile_append_all IsSpace s.reverse (c :: cs).reverse (fun x hx => hs x (by simpa using hx)),
      dropWhile_head_kept IsSpace (c :: cs).reverse
        (fun x hx => hlast x (by rw [← List.head?_reverse]; exact hx)),
      List.reverse_reverse]

/-- C20: the `DiffSuppressFunc` of `key` returns true exactly when the old value
equals the new value with leading and trailing white space removed; hence for every
stored key `k` without leading or trailing white space and all white-space-only
strings `p` and `s`, the diff between `k` and `p ++ k ++ s` is suppressed. -/
theorem keyDiffSuppressFunc_trims :
    (∀ (key oldV newV : String) (d : SshSigningKeyData),
      keyDiffSuppressFunc key oldV newV d = true ↔ oldV = TrimSpace newV) ∧
    (∀ (key k p s : String) (d : SshSigningKeyData),
      (∀ c ∈ p.data, IsSpace c = true) → (∀ c ∈ s.data, IsSpace c = true) →
      (∀ c, k.data.head? = some c → IsSpace c = false) →
      (∀ c, k.data.getLast? = some c → IsSpace c = false) →
      keyDiffSuppressFunc key k (p ++ k ++ s) d = true) := by
  constructor
  · intro key oldV newV d
    simp [keyDiffSuppressFunc]
  · intro key k p s d hp hs hhead hlast
    have h := trim_padded p.data k.data s.data hp hs hhead hlast
    simp only [keyDiffSuppressFunc, TrimSpace, String.data_append, h, beq_self_eq_true]

theorem keyDiffSuppressFunc_trims_witness :
    (keyDiffSuppressFunc "key" "ssh-rsa AAAA" "ssh-rsa AAAA\n" sampleSshSigningKey = true ↔
      "ssh-rsa AAAA" = TrimSpace "ssh-rsa AAAA\n") ∧
    keyDiffSuppressFunc "key" "ssh-rsa AAAA" ("  " ++ "ssh-rsa AAAA" ++ "\n")
      sampleSshSigningKey = true :=
  ⟨keyDiffSuppressFunc_trims.1 "key" "ssh-rsa AAAA" "ssh-rsa AAAA\n" sampleSshSigningKey,
   keyDiffSuppressFunc_trims.2 "key" "ssh-rsa AAAA" "  " "\n" sampleSshSigningKey
    (by decide) (by decide) (by decide) (by decide)⟩

/-! ## Evaluation of the library model on concrete inputs -/

theorem parseTwoPartID_examples :
    parseTwoPartID "owner:repo" = .ok ("owner", "repo") ∧
    parseTwoPartID "owner:re:po" = .ok ("owner", "re:po") ∧
    parseTwoPartID "" = .error (.indexOutOfRange 1 1) ∧
    buildTwoPartID none (some "repo") = .error .nilDereference := by
  decide

theorem ParseInt_examples :
    ParseInt "123" 10 64 = (123, none) ∧
    ParseInt "-123" 10 64 = (-123, none) ∧
    ParseInt "+7" 10 64 = (7, none) ∧
    ParseInt "" 10 64 = (0, some .ErrSyntax) ∧
    ParseInt "+" 10 64 = (0, some .ErrSyntax) ∧
    ParseInt "12a" 10 64 = (0, some .ErrSyntax) ∧
    ParseInt "1_000" 10 64 = (0, some .ErrSyntax) ∧
    ParseInt "9223372036854775807" 10 64 = (9223372036854775807, none) ∧
    ParseInt "9223372036854775808" 10 64 = (9223372036854775807, some .ErrRange) ∧
    ParseInt "-9223372036854775808" 10 64 = (-9223372036854775808, none) ∧
    ParseInt "-9223372036854775809" 10 64 = (-9223372036854775808, some .ErrRange) ∧
    ParseInt "99999999999999999999x" 10 64 = (9223372036854775807, some .ErrRange) := by
  decide

theorem FormatInt_examples :
    FormatInt 0 10 = .ok "0" ∧
    FormatInt 1234 10 = .ok "1234" ∧
    FormatInt (-1234) 10 = .ok "-1234" ∧
    FormatInt 255 16 = .ok "ff" ∧
    FormatInt 35 36 = .ok "z" ∧
    FormatInt 1234 37 = .error .illegalFormatBase ∧
    FormatInt 1234 1 = .error .illegalFormatBase := by
  decide

end GithubProvider
